import Mathlib

/-! # go-city-temperature-identifier

A shallow embedding of the two entry points of the repository
(`src/main.go`, the HTTP handler `cepHandler`, and `src/cmd/main.go`, the
command-line `main`) and of the helpers both files define with identical
text (`getCep`, `getWeather`, `convertToFahrenheit`, `convertToKelvin`,
`removeAccents`).

Modelling decisions:

* A Go `string` is modelled by a Lean `String`, that is, by a text in valid
  UTF-8; Go's `len(s)` is the number of bytes of the encoding,
  `String.utf8ByteSize`.
* `float64` is modelled by `F64`: finite binary64 values in canonical form
  and the two infinities, with round-to-nearest-even multiplication,
  addition and fused multiply-add.  Whether the compiler fuses the
  multiply-add of `convertToFahrenheit` depends on the build target and is
  a field of `World`.  JSON cannot carry NaN, and the two conversions
  cannot produce one from a finite reading.
* The outside world (configuration, the two HTTP providers) is an explicit
  `World` value; each run returns what it wrote together with the list of
  collaborator calls it made, in order.  Of the JSON encoding of a response
  map the text is not modelled, the outcome is: the encoder fails on an
  infinity and then writes nothing, and both entry points drop its error.
* `removeAccents` is three transformers of `golang.org/x/text` in a chain.
  They are modelled on lists of code points: `norm.NFD` as the decomposition
  pass of the norm package, with its stream-safe accounting, followed by
  canonical ordering; `runes.Remove(runes.In(unicode.Mn))` as a filter;
  `norm.NFC` as `norm.NFD` followed by canonical composition (UAX #15).
  The Unicode tables these transformers compile in are not part of the
  repository; they are a parameter (`UnicodeData`) of the normaliser.
-/

set_option linter.dupNamespace false

namespace CityTemp

/-! ## float64 -/

/-- A float64 value that the pipeline can hold: a finite double
`(-1)^neg * man * 2^exp` in canonical form, or an infinity. -/
inductive F64 where
  | fin (neg : Bool) (man : Nat) (exp : Int)
  | inf (neg : Bool)
  deriving DecidableEq

namespace F64

/-- Index of the highest set bit of `n` (0 for `n ≤ 1`), by halving at most `fuel` times. -/
def log2Fuel : Nat → Nat → Nat
  | 0, _ => 0
  | fuel + 1, n => if n < 2 then 0 else log2Fuel fuel (n / 2) + 1

/-- Floor of the binary logarithm. -/
def log2 (n : Nat) : Nat := log2Fuel n n

/-- The positive rational `p / q` scaled by `2^(-e)`, as numerator and denominator. -/
def scaled (p q : Nat) (e : Int) : Nat × Nat := (p * 2 ^ (-e).toNat, q * 2 ^ e.toNat)

/-- Round the non-negative rational `p / q` (with `q > 0`) to the nearest binary64 value,
ties to even, with gradual underflow and overflow to infinity. -/
def roundQ (neg : Bool) (p q : Nat) : F64 :=
  if p = 0 then fin neg 0 (-1074) else
  let e0 : Int := (log2 p : Int) - (log2 q : Int) - 52
  let e1 : Int := if (scaled p q e0).1 / (scaled p q e0).2 < 2 ^ 52 then e0 - 1 else e0
  let e2 : Int := if 2 ^ 53 ≤ (scaled p q e1).1 / (scaled p q e1).2 then e1 + 1 else e1
  let e : Int := if e2 < -1074 then -1074 else e2
  let n := (scaled p q e).1
  let d := (scaled p q e).2
  let m := n / d
  let r := n % d
  let m1 := if 2 * r < d then m else if d < 2 * r then m + 1 else if m % 2 = 0 then m else m + 1
  let m2 : Nat := if m1 = 2 ^ 53 then 2 ^ 52 else m1
  let e3 : Int := if m1 = 2 ^ 53 then e + 1 else e
  if 971 < e3 then inf neg else fin neg m2 e3

/-- The double denoted by a non-negative integer constant. -/
def ofNat (n : Nat) : F64 := roundQ false n 1

/-- Numerator and denominator of the magnitude `man * 2^exp` of a finite double. -/
def fracOf (m : Nat) (e : Int) : Nat × Nat := (m * 2 ^ e.toNat, 2 ^ (-e).toNat)

/-- Multiplication `x * y` of float64, correctly rounded (`0 * inf` does not arise: one
factor is always the finite constant 1.8). -/
def mul : F64 → F64 → F64
  | fin s1 m1 e1, fin s2 m2 e2 =>
    roundQ (xor s1 s2) ((fracOf m1 e1).1 * (fracOf m2 e2).1) ((fracOf m1 e1).2 * (fracOf m2 e2).2)
  | fin s1 _ _, inf s2 => inf (xor s1 s2)
  | inf s1, fin s2 _ _ => inf (xor s1 s2)
  | inf s1, inf s2 => inf (xor s1 s2)

/-- Addition `x + y` of float64, correctly rounded (`inf + -inf` does not arise: one summand
is always a finite constant). -/
def add : F64 → F64 → F64
  | fin s1 m1 e1, fin s2 m2 e2 =>
    let x : Int := (if s1 then -1 else 1) * (((fracOf m1 e1).1 * (fracOf m2 e2).2 : Nat) : Int)
    let y : Int := (if s2 then -1 else 1) * (((fracOf m2 e2).1 * (fracOf m1 e1).2 : Nat) : Int)
    if x + y = 0 then fin (s1 && s2) 0 (-1074)
    else roundQ (decide (x + y < 0)) (x + y).natAbs ((fracOf m1 e1).2 * (fracOf m2 e2).2)
  | fin _ _ _, inf s2 => inf s2
  | inf s1, _ => inf s1

/-- Fused multiply-add `x*y + z` of float64: the exact product and sum, rounded once (no
operand is NaN, `0 * inf` and `inf + -inf` do not arise: `y` and `z` are finite non-zero
constants). -/
def fma : F64 → F64 → F64 → F64
  | fin s1 m1 e1, fin s2 m2 e2, fin s3 m3 e3 =>
    let pn : Nat := (fracOf m1 e1).1 * (fracOf m2 e2).1
    let pd : Nat := (fracOf m1 e1).2 * (fracOf m2 e2).2
    let x : Int := (if xor s1 s2 then -1 else 1) * ((pn * (fracOf m3 e3).2 : Nat) : Int)
    let y : Int := (if s3 then -1 else 1) * (((fracOf m3 e3).1 * pd : Nat) : Int)
    if x + y = 0 then fin (xor s1 s2 && s3) 0 (-1074)
    else roundQ (decide (x + y < 0)) (x + y).natAbs (pd * (fracOf m3 e3).2)
  | fin _ _ _, fin _ _ _, inf s3 => inf s3
  | fin s1 _ _, inf s2, _ => inf (xor s1 s2)
  | inf s1, fin s2 _ _, _ => inf (xor s1 s2)
  | inf s1, inf s2, _ => inf (xor s1 s2)

/-- Whether the value is finite (Go `!math.IsInf(f, 0)`). -/
def isFinite : F64 → Bool
  | fin _ _ _ => true
  | inf _ => false

end F64

/-- The constant `1.8` of `convertToFahrenheit`, converted to float64. -/
def const1_8 : F64 := F64.roundQ false 18 10

/-- The constant `273.15` of `convertToKelvin`, converted to float64. -/
def const273_15 : F64 := F64.roundQ false 27315 100

/-- Go `convertToFahrenheit`: `celsius*1.8 + 32`.  The language lets the compiler fuse
`x*y + z` into one operation with a single rounding; `fused` says whether the build does
(it does on arm64, it does not on plain amd64). -/
def convertToFahrenheit (fused : Bool) (celsius : F64) : F64 :=
  if fused then F64.fma celsius const1_8 (F64.ofNat 32)
  else F64.add (F64.mul celsius const1_8) (F64.ofNat 32)

/-- Go `convertToKelvin`: `celsius + 273.15`. -/
def convertToKelvin (celsius : F64) : F64 :=
  F64.add celsius const273_15

/-! ## Text normaliser -/

/-- The Unicode data compiled into `golang.org/x/text/unicode/norm` and Go's `unicode`
package, which `removeAccents` consults and the repository does not contain.
Code points missing from a table have the default property (class 0, no decomposition,
no composition, zero counts, not `Mn`). -/
structure UnicodeData where
  /-- Canonical combining class, for the code points where it is not 0. -/
  ccc : List (Char × Nat)
  /-- Full canonical decomposition, for the code points that have one. -/
  decomp : List (Char × List Char)
  /-- Primary composites: `((first, second), composite)`. -/
  comp : List ((Char × Char) × Char)
  /-- Table `nLeadingNonStarters` of the norm package, where it is not 0. -/
  lead : List (Char × Nat)
  /-- Table `nTrailingNonStarters` of the norm package, where it is not 0. -/
  trail : List (Char × Nat)
  /-- Range table `unicode.Mn`: `(Lo, Hi, Stride)` entries over code point numbers. -/
  mn : List (Nat × Nat × Nat)

/-- Constant `maxNonStarters` of the norm package. -/
def maxNonStarters : Nat := 30

/-- Constant `GraphemeJoiner` of the norm package, U+034F, "inserted after
maxNonStarters non-starter runes". -/
def GraphemeJoiner : Char := Char.ofNat 0x034F

namespace UnicodeData

variable (u : UnicodeData)

/-- Canonical combining class of a code point. -/
def cccOf (c : Char) : Nat := (u.ccc.lookup c).getD 0

/-- Full canonical decomposition of a code point (itself when it has none). -/
def decompose (c : Char) : List Char := (u.decomp.lookup c).getD [c]

/-- Primary composite of a pair, if any. -/
def combine (a b : Char) : Option Char := u.comp.lookup (a, b)

/-- Number of leading non-starters of the decomposition of a rune. -/
def nLead (c : Char) : Nat := (u.lead.lookup c).getD 0

/-- Number of trailing non-starters of the decomposition of a rune. -/
def nTrail (c : Char) : Nat := (u.trail.lookup c).getD 0

/-- Go `runes.In(unicode.Mn).Contains`: membership in the range table. -/
def isMn (c : Char) : Bool :=
  u.mn.any (fun r => decide (r.1 ≤ c.toNat ∧ c.toNat ≤ r.2.1 ∧ (c.toNat - r.1) % r.2.2 = 0))

/-- Decomposition pass of the norm package with its stream-safe accounting
(`streamSafe.next`, `decomposeSegment`): every rune is replaced by its decomposition, and a
rune that would bring the count of successive non-starters above `maxNonStarters` is
preceded by a `GraphemeJoiner`.  `ss` is the running count. -/
def decomposeRunes : Nat → List Char → List Char
  | _, [] => []
  | ss, c :: rest =>
    if maxNonStarters < ss + u.nLead c then
      GraphemeJoiner :: (u.decompose c ++ decomposeRunes (u.nLead c) rest)
    else if u.nLead c = 0 then u.decompose c ++ decomposeRunes (u.nTrail c) rest
    else u.decompose c ++ decomposeRunes (ss + u.nLead c) rest

/-- Go `reorderBuffer.insertOrdered`, on a buffer held last rune first: a rune of non-zero
class moves in front of the buffered runes of greater class. -/
def insertOrdered (c : Char) : List Char → List Char
  | [] => [c]
  | b :: bs =>
    if 0 < u.cccOf c ∧ u.cccOf c < u.cccOf b then b :: insertOrdered c bs else c :: b :: bs

/-- Canonical ordering of a decomposed text. -/
def reorder (l : List Char) : List Char :=
  (l.foldl (fun buf c => u.insertOrdered c buf) []).reverse

/-- Form `norm.NFD`. -/
def nfd (l : List Char) : List Char := u.reorder (u.decomposeRunes 0 l)

/-- Canonical composition (UAX #15, as in `reorderBuffer.compose`): `pre` is the finished
output and `tail` the runes kept after the current starter `st`, both last rune first.
A rune is blocked from the starter when the rune before it has the same or a higher class. -/
def composeAux : List Char → Option Char → List Char → List Char → List Char
  | pre, none, _, [] => pre.reverse
  | pre, some s, tail, [] => (tail ++ s :: pre).reverse
  | pre, none, _, c :: rest =>
    if u.cccOf c = 0 then composeAux pre (some c) [] rest else composeAux (c :: pre) none [] rest
  | pre, some s, tail, c :: rest =>
    match (if (match tail with | [] => false | b :: _ => decide (u.cccOf c ≤ u.cccOf b))
           then none else u.combine s c) with
    | some p => composeAux pre (some p) tail rest
    | none =>
      if u.cccOf c = 0 then composeAux (tail ++ s :: pre) (some c) [] rest
      else composeAux pre (some s) (c :: tail) rest

/-- Canonical composition of a decomposed, ordered text. -/
def compose (l : List Char) : List Char := u.composeAux [] none [] l

/-- Form `norm.NFC`. -/
def nfc (l : List Char) : List Char := u.compose (u.nfd l)

/-- Go `runes.Remove(runes.In(unicode.Mn))`. -/
def removeMn (l : List Char) : List Char := l.filter (fun c => !u.isMn c)

end UnicodeData

/-- Go `removeAccents`: `transform.Chain(norm.NFD, runes.Remove(runes.In(unicode.Mn)),
norm.NFC)` applied to `s`.  None of the three transformers reports an error, so the
`err != nil` branch is not reached. -/
def removeAccents (u : UnicodeData) (s : String) : String :=
  String.mk (u.nfc (u.removeMn (u.nfd s.data)))

/-! ## Auxiliary notions for reasoning about the normaliser -/

namespace UnicodeData

variable (u : UnicodeData)

/-- Canonical ordering with an explicit buffer (last rune first). -/
def reorderAux (buf : List Char) (l : List Char) : List Char :=
  l.foldl (fun b c => u.insertOrdered c b) buf

/-- Class of the last buffered rune, 0 for an empty buffer. -/
def lastClass : List Char → Nat
  | [] => 0
  | b :: _ => u.cccOf b

/-- A text is canonically ordered after a rune of class `k`: no rune of non-zero class
follows a rune of greater class. -/
def OrderedFrom : Nat → List Char → Prop
  | _, [] => True
  | k, c :: r => (u.cccOf c = 0 ∨ k ≤ u.cccOf c) ∧ OrderedFrom (u.cccOf c) r

/-- The buffer is canonically ordered (it is held last rune first). -/
def OrderedRev : List Char → Prop
  | [] => True
  | c :: buf => (u.cccOf c = 0 ∨ u.lastClass buf ≤ u.cccOf c) ∧ OrderedRev buf

/-- Class of the last rune of a text read backwards, `k` for an empty text. -/
def lastClassD (k : Nat) : List Char → Nat
  | [] => k
  | b :: _ => u.cccOf b

/-- What canonical ordering leaves in place: a starter is itself, a non-starter is
anonymous. -/
def shape (c : Char) : Option Char := if u.cccOf c = 0 then some c else none

/-- The stream-safe count after a rune that does not overflow (`streamSafe.next`). -/
def ssNext (ss : Nat) (c : Char) : Nat := if u.nLead c = 0 then u.nTrail c else ss + u.nLead c

/-- No rune of the text overflows the stream-safe count started at `ss`. -/
def NoOverflow : Nat → List Char → Prop
  | _, [] => True
  | ss, c :: r => ss + u.nLead c ≤ maxNonStarters ∧ NoOverflow (u.ssNext ss c) r

/-- The text is in stream-safe form for the count `ss`: every `GraphemeJoiner` in it stands
exactly where the decomposition pass would insert one.  The flag says that a joiner has
just been read. -/
def StreamSafe : Bool → Nat → List Char → Prop
  | b, _, [] => b = false
  | false, ss, c :: r =>
    if c = GraphemeJoiner then StreamSafe true ss r
    else ss + u.nLead c ≤ maxNonStarters ∧ StreamSafe false (u.ssNext ss c) r
  | true, ss, c :: r =>
    c ≠ GraphemeJoiner ∧ maxNonStarters < ss + u.nLead c ∧ StreamSafe false (u.nLead c) r

/-- Every rune replaced by its decomposition, without stream-safe accounting. -/
def decomposeAll : List Char → List Char
  | [] => []
  | c :: r => u.decompose c ++ decomposeAll r

/-- No rune of the text has a decomposition. -/
def Atomic (l : List Char) : Prop := ∀ c ∈ l, u.decompose c = [c]

/-- Full decompositions consist of code points that have no decomposition. -/
def DecompositionsFull : Prop :=
  ∀ e ∈ u.decomp, ∀ d ∈ e.2, u.decompose d = [d]

/-- The grapheme joiner is a starter of category Mn, without decomposition and without
non-starter counts. -/
def JoinerPlain : Prop :=
  u.cccOf GraphemeJoiner = 0 ∧ u.decompose GraphemeJoiner = [GraphemeJoiner] ∧
    u.nLead GraphemeJoiner = 0 ∧ u.nTrail GraphemeJoiner = 0 ∧ u.isMn GraphemeJoiner = true

/-- A primary composite `p` of a pair `(a, b)` is a starter that decomposes into the
decomposition of `a` followed by `b`; `a` is a starter, `b` has no decomposition and counts
as a non-starter; the trailing count of `p` is that of `a` plus the count of `b`; neither
`a` nor `b` is the grapheme joiner; and `p` is of category Mn only if `a` is. -/
def CompositesSound : Prop :=
  ∀ e ∈ u.comp,
    u.decompose e.2 = u.decompose e.1.1 ++ [e.1.2] ∧ u.decompose e.1.2 = [e.1.2] ∧
    u.cccOf e.1.1 = 0 ∧ u.cccOf e.2 = 0 ∧ u.nLead e.1.1 = 0 ∧ u.nLead e.2 = 0 ∧
    1 ≤ u.nLead e.1.2 ∧ u.nTrail e.2 = u.nTrail e.1.1 + u.nLead e.1.2 ∧
    e.1.1 ≠ GraphemeJoiner ∧ e.1.2 ≠ GraphemeJoiner ∧
    (u.isMn e.2 = true → u.isMn e.1.1 = true)

/-- A code point of non-zero class counts as a non-starter, as exactly one if it has no
decomposition. -/
def NonStartersCounted : Prop :=
  ∀ e ∈ u.ccc, e.2 ≠ 0 → 1 ≤ u.nLead e.1 ∧ (u.decompose e.1 = [e.1] → u.nLead e.1 = 1)

/-- The counts of a code point are those of its decomposition: after a code point that
counts as a starter, the decomposition starts with such a code point and ends with the
same trailing count, without overflow; otherwise every code point of the decomposition
counts as a non-starter and the counts add up. -/
def DecompositionCounts : Prop :=
  ∀ e ∈ u.decomp,
    if u.nLead e.1 = 0 then
      match e.2 with
      | [] => False
      | d :: r =>
        u.nLead d = 0 ∧ u.NoOverflow (u.nTrail d) r ∧
          r.foldl u.ssNext (u.nTrail d) = u.nTrail e.1
    else (∀ d ∈ e.2, u.nLead d ≠ 0) ∧ (e.2.map u.nLead).sum = u.nLead e.1

/-- Consistency of the tables, as the Unicode Character Database and the table generator of
the norm package guarantee it. -/
def WellFormed : Prop :=
  u.DecompositionsFull ∧ u.JoinerPlain ∧ u.CompositesSound ∧
    (∀ e ∈ u.lead, e.2 ≤ maxNonStarters) ∧ (∀ e ∈ u.trail, e.2 ≤ maxNonStarters) ∧
    u.NonStartersCounted ∧ u.DecompositionCounts

/-- The canonical decomposition of a text (UAX #15): every rune replaced by its full
decomposition, then canonical ordering; no joiner is inserted. -/
def canonicalDecomposition (l : List Char) : List Char := u.reorder (u.decomposeAll l)

/-- A code point that counts as a non-starter and decomposes into several code points has
a code point of category Mn in its decomposition. -/
def LongDecompositionsMarked : Prop :=
  ∀ e ∈ u.decomp, u.nLead e.1 ≠ 0 → e.2.length = 1 ∨ ∃ d ∈ e.2, u.isMn d = true

/-- The runes kept behind the current starter: non-starters without decomposition, none of
a class above that of the last one. -/
def TailOk (tail : List Char) : Prop :=
  ∀ t ∈ tail, 0 < u.cccOf t ∧ u.cccOf t ≤ u.lastClass tail ∧ u.decompose t = [t]

/-- A rune is not a mark, unless it is the grapheme joiner. -/
def MarkFree (c : Char) : Prop := u.isMn c = true → c = GraphemeJoiner

/-- The list form of `removeAccents`. -/
def strip (l : List Char) : List Char := u.nfc (u.removeMn (u.nfd l))

/-- Overflow is decidable. -/
instance decNoOverflow (u : UnicodeData) :
    ∀ (ss : Nat) (l : List Char), Decidable (u.NoOverflow ss l)
  | _, [] => isTrue trivial
  | ss, c :: r =>
    have := decNoOverflow u (u.ssNext ss c) r
    inferInstanceAs (Decidable (_ ∧ _))

/-- The count condition on a decomposition is decidable. -/
instance decCountsOk (u : UnicodeData) (c : Char) (ds : List Char) : Decidable
    (match ds with
      | [] => False
      | d :: r =>
        u.nLead d = 0 ∧ u.NoOverflow (u.nTrail d) r ∧
          r.foldl u.ssNext (u.nTrail d) = u.nTrail c) := by
  cases ds <;> infer_instance

/-- The condition on long decompositions is decidable. -/
instance decLongDecompositionsMarked (u : UnicodeData) :
    Decidable u.LongDecompositionsMarked := by
  unfold LongDecompositionsMarked
  infer_instance

/-- Consistency of the tables is decidable. -/
instance decWellFormed (u : UnicodeData) : Decidable u.WellFormed := by
  unfold WellFormed DecompositionsFull JoinerPlain CompositesSound NonStartersCounted
    DecompositionCounts
  infer_instance

end UnicodeData

/-- A text without its grapheme joiners. -/
def removeJoiners (l : List Char) : List Char := l.filter (fun c => c != GraphemeJoiner)

/-! ## An excerpt of the Unicode tables -/

/-- Code point with the given number. -/
def cp (n : Nat) : Char := Char.ofNat n

/-- Excerpt of the Unicode 14 data: canonical combining classes of U+0300..U+036F and
U+302A..U+302F. -/
def excerptCcc : List (Char × Nat) :=
  [
    (cp 0x0300, 230), (cp 0x0301, 230), (cp 0x0302, 230), (cp 0x0303, 230),
    (cp 0x0304, 230), (cp 0x0305, 230), (cp 0x0306, 230), (cp 0x0307, 230),
    (cp 0x0308, 230), (cp 0x0309, 230), (cp 0x030A, 230), (cp 0x030B, 230),
    (cp 0x030C, 230), (cp 0x030D, 230), (cp 0x030E, 230), (cp 0x030F, 230),
    (cp 0x0310, 230), (cp 0x0311, 230), (cp 0x0312, 230), (cp 0x0313, 230),
    (cp 0x0314, 230), (cp 0x0315, 232), (cp 0x0316, 220), (cp 0x0317, 220),
    (cp 0x0318, 220), (cp 0x0319, 220), (cp 0x031A, 232), (cp 0x031B, 216),
    (cp 0x031C, 220), (cp 0x031D, 220), (cp 0x031E, 220), (cp 0x031F, 220),
    (cp 0x0320, 220), (cp 0x0321, 202), (cp 0x0322, 202), (cp 0x0323, 220),
    (cp 0x0324, 220), (cp 0x0325, 220), (cp 0x0326, 220), (cp 0x0327, 202),
    (cp 0x0328, 202), (cp 0x0329, 220), (cp 0x032A, 220), (cp 0x032B, 220),
    (cp 0x032C, 220), (cp 0x032D, 220), (cp 0x032E, 220), (cp 0x032F, 220),
    (cp 0x0330, 220), (cp 0x0331, 220), (cp 0x0332, 220), (cp 0x0333, 220),
    (cp 0x0334, 1), (cp 0x0335, 1), (cp 0x0336, 1), (cp 0x0337, 1),
    (cp 0x0338, 1), (cp 0x0339, 220), (cp 0x033A, 220), (cp 0x033B, 220),
    (cp 0x033C, 220), (cp 0x033D, 230), (cp 0x033E, 230), (cp 0x033F, 230),
    (cp 0x0340, 230), (cp 0x0341, 230), (cp 0x0342, 230), (cp 0x0343, 230),
    (cp 0x0344, 230), (cp 0x0345, 240), (cp 0x0346, 230), (cp 0x0347, 220),
    (cp 0x0348, 220), (cp 0x0349, 220), (cp 0x034A, 230), (cp 0x034B, 230),
    (cp 0x034C, 230), (cp 0x034D, 220), (cp 0x034E, 220), (cp 0x0350, 230),
    (cp 0x0351, 230), (cp 0x0352, 230), (cp 0x0353, 220), (cp 0x0354, 220),
    (cp 0x0355, 220), (cp 0x0356, 220), (cp 0x0357, 230), (cp 0x0358, 232),
    (cp 0x0359, 220), (cp 0x035A, 220), (cp 0x035B, 230), (cp 0x035C, 233),
    (cp 0x035D, 234), (cp 0x035E, 234), (cp 0x035F, 233), (cp 0x0360, 234),
    (cp 0x0361, 234), (cp 0x0362, 233), (cp 0x0363, 230), (cp 0x0364, 230),
    (cp 0x0365, 230), (cp 0x0366, 230), (cp 0x0367, 230), (cp 0x0368, 230),
    (cp 0x0369, 230), (cp 0x036A, 230), (cp 0x036B, 230), (cp 0x036C, 230),
    (cp 0x036D, 230), (cp 0x036E, 230), (cp 0x036F, 230), (cp 0x302A, 218),
    (cp 0x302B, 228), (cp 0x302C, 232), (cp 0x302D, 222), (cp 0x302E, 224),
    (cp 0x302F, 224)]

/-- Excerpt of the Unicode 14 data: full canonical decompositions of U+00C0..U+00FF and
U+0300..U+036F. -/
def excerptDecomp : List (Char × List Char) :=
  [
    (cp 0x00C0, [cp 0x0041, cp 0x0300]), (cp 0x00C1, [cp 0x0041, cp 0x0301]),
    (cp 0x00C2, [cp 0x0041, cp 0x0302]), (cp 0x00C3, [cp 0x0041, cp 0x0303]),
    (cp 0x00C4, [cp 0x0041, cp 0x0308]), (cp 0x00C5, [cp 0x0041, cp 0x030A]),
    (cp 0x00C7, [cp 0x0043, cp 0x0327]), (cp 0x00C8, [cp 0x0045, cp 0x0300]),
    (cp 0x00C9, [cp 0x0045, cp 0x0301]), (cp 0x00CA, [cp 0x0045, cp 0x0302]),
    (cp 0x00CB, [cp 0x0045, cp 0x0308]), (cp 0x00CC, [cp 0x0049, cp 0x0300]),
    (cp 0x00CD, [cp 0x0049, cp 0x0301]), (cp 0x00CE, [cp 0x0049, cp 0x0302]),
    (cp 0x00CF, [cp 0x0049, cp 0x0308]), (cp 0x00D1, [cp 0x004E, cp 0x0303]),
    (cp 0x00D2, [cp 0x004F, cp 0x0300]), (cp 0x00D3, [cp 0x004F, cp 0x0301]),
    (cp 0x00D4, [cp 0x004F, cp 0x0302]), (cp 0x00D5, [cp 0x004F, cp 0x0303]),
    (cp 0x00D6, [cp 0x004F, cp 0x0308]), (cp 0x00D9, [cp 0x0055, cp 0x0300]),
    (cp 0x00DA, [cp 0x0055, cp 0x0301]), (cp 0x00DB, [cp 0x0055, cp 0x0302]),
    (cp 0x00DC, [cp 0x0055, cp 0x0308]), (cp 0x00DD, [cp 0x0059, cp 0x0301]),
    (cp 0x00E0, [cp 0x0061, cp 0x0300]), (cp 0x00E1, [cp 0x0061, cp 0x0301]),
    (cp 0x00E2, [cp 0x0061, cp 0x0302]), (cp 0x00E3, [cp 0x0061, cp 0x0303]),
    (cp 0x00E4, [cp 0x0061, cp 0x0308]), (cp 0x00E5, [cp 0x0061, cp 0x030A]),
    (cp 0x00E7, [cp 0x0063, cp 0x0327]), (cp 0x00E8, [cp 0x0065, cp 0x0300]),
    (cp 0x00E9, [cp 0x0065, cp 0x0301]), (cp 0x00EA, [cp 0x0065, cp 0x0302]),
    (cp 0x00EB, [cp 0x0065, cp 0x0308]), (cp 0x00EC, [cp 0x0069, cp 0x0300]),
    (cp 0x00ED, [cp 0x0069, cp 0x0301]), (cp 0x00EE, [cp 0x0069, cp 0x0302]),
    (cp 0x00EF, [cp 0x0069, cp 0x0308]), (cp 0x00F1, [cp 0x006E, cp 0x0303]),
    (cp 0x00F2, [cp 0x006F, cp 0x0300]), (cp 0x00F3, [cp 0x006F, cp 0x0301]),
    (cp 0x00F4, [cp 0x006F, cp 0x0302]), (cp 0x00F5, [cp 0x006F, cp 0x0303]),
    (cp 0x00F6, [cp 0x006F, cp 0x0308]), (cp 0x00F9, [cp 0x0075, cp 0x0300]),
    (cp 0x00FA, [cp 0x0075, cp 0x0301]), (cp 0x00FB, [cp 0x0075, cp 0x0302]),
    (cp 0x00FC, [cp 0x0075, cp 0x0308]), (cp 0x00FD, [cp 0x0079, cp 0x0301]),
    (cp 0x00FF, [cp 0x0079, cp 0x0308]), (cp 0x0340, [cp 0x0300]),
    (cp 0x0341, [cp 0x0301]), (cp 0x0343, [cp 0x0313]),
    (cp 0x0344, [cp 0x0308, cp 0x0301])]

/-- Excerpt of the Unicode 14 data: the primary composites in U+00C0..U+00FF. -/
def excerptComp : List ((Char × Char) × Char) :=
  [
    ((cp 0x0041, cp 0x0300), cp 0x00C0), ((cp 0x0041, cp 0x0301), cp 0x00C1),
    ((cp 0x0041, cp 0x0302), cp 0x00C2), ((cp 0x0041, cp 0x0303), cp 0x00C3),
    ((cp 0x0041, cp 0x0308), cp 0x00C4), ((cp 0x0041, cp 0x030A), cp 0x00C5),
    ((cp 0x0043, cp 0x0327), cp 0x00C7), ((cp 0x0045, cp 0x0300), cp 0x00C8),
    ((cp 0x0045, cp 0x0301), cp 0x00C9), ((cp 0x0045, cp 0x0302), cp 0x00CA),
    ((cp 0x0045, cp 0x0308), cp 0x00CB), ((cp 0x0049, cp 0x0300), cp 0x00CC),
    ((cp 0x0049, cp 0x0301), cp 0x00CD), ((cp 0x0049, cp 0x0302), cp 0x00CE),
    ((cp 0x0049, cp 0x0308), cp 0x00CF), ((cp 0x004E, cp 0x0303), cp 0x00D1),
    ((cp 0x004F, cp 0x0300), cp 0x00D2), ((cp 0x004F, cp 0x0301), cp 0x00D3),
    ((cp 0x004F, cp 0x0302), cp 0x00D4), ((cp 0x004F, cp 0x0303), cp 0x00D5),
    ((cp 0x004F, cp 0x0308), cp 0x00D6), ((cp 0x0055, cp 0x0300), cp 0x00D9),
    ((cp 0x0055, cp 0x0301), cp 0x00DA), ((cp 0x0055, cp 0x0302), cp 0x00DB),
    ((cp 0x0055, cp 0x0308), cp 0x00DC), ((cp 0x0059, cp 0x0301), cp 0x00DD),
    ((cp 0x0061, cp 0x0300), cp 0x00E0), ((cp 0x0061, cp 0x0301), cp 0x00E1),
    ((cp 0x0061, cp 0x0302), cp 0x00E2), ((cp 0x0061, cp 0x0303), cp 0x00E3),
    ((cp 0x0061, cp 0x0308), cp 0x00E4), ((cp 0x0061, cp 0x030A), cp 0x00E5),
    ((cp 0x0063, cp 0x0327), cp 0x00E7), ((cp 0x0065, cp 0x0300), cp 0x00E8),
    ((cp 0x0065, cp 0x0301), cp 0x00E9), ((cp 0x0065, cp 0x0302), cp 0x00EA),
    ((cp 0x0065, cp 0x0308), cp 0x00EB), ((cp 0x0069, cp 0x0300), cp 0x00EC),
    ((cp 0x0069, cp 0x0301), cp 0x00ED), ((cp 0x0069, cp 0x0302), cp 0x00EE),
    ((cp 0x0069, cp 0x0308), cp 0x00EF), ((cp 0x006E, cp 0x0303), cp 0x00F1),
    ((cp 0x006F, cp 0x0300), cp 0x00F2), ((cp 0x006F, cp 0x0301), cp 0x00F3),
    ((cp 0x006F, cp 0x0302), cp 0x00F4), ((cp 0x006F, cp 0x0303), cp 0x00F5),
    ((cp 0x006F, cp 0x0308), cp 0x00F6), ((cp 0x0075, cp 0x0300), cp 0x00F9),
    ((cp 0x0075, cp 0x0301), cp 0x00FA), ((cp 0x0075, cp 0x0302), cp 0x00FB),
    ((cp 0x0075, cp 0x0308), cp 0x00FC), ((cp 0x0079, cp 0x0301), cp 0x00FD),
    ((cp 0x0079, cp 0x0308), cp 0x00FF)]

/-- Excerpt of the table of leading non-starter counts. -/
def excerptLead : List (Char × Nat) :=
  [
    (cp 0x0300, 1), (cp 0x0301, 1), (cp 0x0302, 1), (cp 0x0303, 1),
    (cp 0x0304, 1), (cp 0x0305, 1), (cp 0x0306, 1), (cp 0x0307, 1),
    (cp 0x0308, 1), (cp 0x0309, 1), (cp 0x030A, 1), (cp 0x030B, 1),
    (cp 0x030C, 1), (cp 0x030D, 1), (cp 0x030E, 1), (cp 0x030F, 1),
    (cp 0x0310, 1), (cp 0x0311, 1), (cp 0x0312, 1), (cp 0x0313, 1),
    (cp 0x0314, 1), (cp 0x0315, 1), (cp 0x0316, 1), (cp 0x0317, 1),
    (cp 0x0318, 1), (cp 0x0319, 1), (cp 0x031A, 1), (cp 0x031B, 1),
    (cp 0x031C, 1), (cp 0x031D, 1), (cp 0x031E, 1), (cp 0x031F, 1),
    (cp 0x0320, 1), (cp 0x0321, 1), (cp 0x0322, 1), (cp 0x0323, 1),
    (cp 0x0324, 1), (cp 0x0325, 1), (cp 0x0326, 1), (cp 0x0327, 1),
    (cp 0x0328, 1), (cp 0x0329, 1), (cp 0x032A, 1), (cp 0x032B, 1),
    (cp 0x032C, 1), (cp 0x032D, 1), (cp 0x032E, 1), (cp 0x032F, 1),
    (cp 0x0330, 1), (cp 0x0331, 1), (cp 0x0332, 1), (cp 0x0333, 1),
    (cp 0x0334, 1), (cp 0x0335, 1), (cp 0x0336, 1), (cp 0x0337, 1),
    (cp 0x0338, 1), (cp 0x0339, 1), (cp 0x033A, 1), (cp 0x033B, 1),
    (cp 0x033C, 1), (cp 0x033D, 1), (cp 0x033E, 1), (cp 0x033F, 1),
    (cp 0x0340, 1), (cp 0x0341, 1), (cp 0x0342, 1), (cp 0x0343, 1),
    (cp 0x0344, 2), (cp 0x0345, 1), (cp 0x0346, 1), (cp 0x0347, 1),
    (cp 0x0348, 1), (cp 0x0349, 1), (cp 0x034A, 1), (cp 0x034B, 1),
    (cp 0x034C, 1), (cp 0x034D, 1), (cp 0x034E, 1), (cp 0x0350, 1),
    (cp 0x0351, 1), (cp 0x0352, 1), (cp 0x0353, 1), (cp 0x0354, 1),
    (cp 0x0355, 1), (cp 0x0356, 1), (cp 0x0357, 1), (cp 0x0358, 1),
    (cp 0x0359, 1), (cp 0x035A, 1), (cp 0x035B, 1), (cp 0x035C, 1),
    (cp 0x035D, 1), (cp 0x035E, 1), (cp 0x035F, 1), (cp 0x0360, 1),
    (cp 0x0361, 1), (cp 0x0362, 1), (cp 0x0363, 1), (cp 0x0364, 1),
    (cp 0x0365, 1), (cp 0x0366, 1), (cp 0x0367, 1), (cp 0x0368, 1),
    (cp 0x0369, 1), (cp 0x036A, 1), (cp 0x036B, 1), (cp 0x036C, 1),
    (cp 0x036D, 1), (cp 0x036E, 1), (cp 0x036F, 1), (cp 0x302A, 1),
    (cp 0x302B, 1), (cp 0x302C, 1), (cp 0x302D, 1), (cp 0x302E, 1),
    (cp 0x302F, 1)]

/-- Excerpt of the table of trailing non-starter counts. -/
def excerptTrail : List (Char × Nat) :=
  [
    (cp 0x00C0, 1), (cp 0x00C1, 1), (cp 0x00C2, 1), (cp 0x00C3, 1),
    (cp 0x00C4, 1), (cp 0x00C5, 1), (cp 0x00C7, 1), (cp 0x00C8, 1),
    (cp 0x00C9, 1), (cp 0x00CA, 1), (cp 0x00CB, 1), (cp 0x00CC, 1),
    (cp 0x00CD, 1), (cp 0x00CE, 1), (cp 0x00CF, 1), (cp 0x00D1, 1),
    (cp 0x00D2, 1), (cp 0x00D3, 1), (cp 0x00D4, 1), (cp 0x00D5, 1),
    (cp 0x00D6, 1), (cp 0x00D9, 1), (cp 0x00DA, 1), (cp 0x00DB, 1),
    (cp 0x00DC, 1), (cp 0x00DD, 1), (cp 0x00E0, 1), (cp 0x00E1, 1),
    (cp 0x00E2, 1), (cp 0x00E3, 1), (cp 0x00E4, 1), (cp 0x00E5, 1),
    (cp 0x00E7, 1), (cp 0x00E8, 1), (cp 0x00E9, 1), (cp 0x00EA, 1),
    (cp 0x00EB, 1), (cp 0x00EC, 1), (cp 0x00ED, 1), (cp 0x00EE, 1),
    (cp 0x00EF, 1), (cp 0x00F1, 1), (cp 0x00F2, 1), (cp 0x00F3, 1),
    (cp 0x00F4, 1), (cp 0x00F5, 1), (cp 0x00F6, 1), (cp 0x00F9, 1),
    (cp 0x00FA, 1), (cp 0x00FB, 1), (cp 0x00FC, 1), (cp 0x00FD, 1),
    (cp 0x00FF, 1), (cp 0x0300, 1), (cp 0x0301, 1), (cp 0x0302, 1),
    (cp 0x0303, 1), (cp 0x0304, 1), (cp 0x0305, 1), (cp 0x0306, 1),
    (cp 0x0307, 1), (cp 0x0308, 1), (cp 0x0309, 1), (cp 0x030A, 1),
    (cp 0x030B, 1), (cp 0x030C, 1), (cp 0x030D, 1), (cp 0x030E, 1),
    (cp 0x030F, 1), (cp 0x0310, 1), (cp 0x0311, 1), (cp 0x0312, 1),
    (cp 0x0313, 1), (cp 0x0314, 1), (cp 0x0315, 1), (cp 0x0316, 1),
    (cp 0x0317, 1), (cp 0x0318, 1), (cp 0x0319, 1), (cp 0x031A, 1),
    (cp 0x031B, 1), (cp 0x031C, 1), (cp 0x031D, 1), (cp 0x031E, 1),
    (cp 0x031F, 1), (cp 0x0320, 1), (cp 0x0321, 1), (cp 0x0322, 1),
    (cp 0x0323, 1), (cp 0x0324, 1), (cp 0x0325, 1), (cp 0x0326, 1),
    (cp 0x0327, 1), (cp 0x0328, 1), (cp 0x0329, 1), (cp 0x032A, 1),
    (cp 0x032B, 1), (cp 0x032C, 1), (cp 0x032D, 1), (cp 0x032E, 1),
    (cp 0x032F, 1), (cp 0x0330, 1), (cp 0x0331, 1), (cp 0x0332, 1),
    (cp 0x0333, 1), (cp 0x0334, 1), (cp 0x0335, 1), (cp 0x0336, 1),
    (cp 0x0337, 1), (cp 0x0338, 1), (cp 0x0339, 1), (cp 0x033A, 1),
    (cp 0x033B, 1), (cp 0x033C, 1), (cp 0x033D, 1), (cp 0x033E, 1),
    (cp 0x033F, 1), (cp 0x0340, 1), (cp 0x0341, 1), (cp 0x0342, 1),
    (cp 0x0343, 1), (cp 0x0344, 2), (cp 0x0345, 1), (cp 0x0346, 1),
    (cp 0x0347, 1), (cp 0x0348, 1), (cp 0x0349, 1), (cp 0x034A, 1),
    (cp 0x034B, 1), (cp 0x034C, 1), (cp 0x034D, 1), (cp 0x034E, 1),
    (cp 0x0350, 1), (cp 0x0351, 1), (cp 0x0352, 1), (cp 0x0353, 1),
    (cp 0x0354, 1), (cp 0x0355, 1), (cp 0x0356, 1), (cp 0x0357, 1),
    (cp 0x0358, 1), (cp 0x0359, 1), (cp 0x035A, 1), (cp 0x035B, 1),
    (cp 0x035C, 1), (cp 0x035D, 1), (cp 0x035E, 1), (cp 0x035F, 1),
    (cp 0x0360, 1), (cp 0x0361, 1), (cp 0x0362, 1), (cp 0x0363, 1),
    (cp 0x0364, 1), (cp 0x0365, 1), (cp 0x0366, 1), (cp 0x0367, 1),
    (cp 0x0368, 1), (cp 0x0369, 1), (cp 0x036A, 1), (cp 0x036B, 1),
    (cp 0x036C, 1), (cp 0x036D, 1), (cp 0x036E, 1), (cp 0x036F, 1),
    (cp 0x302A, 1), (cp 0x302B, 1), (cp 0x302C, 1), (cp 0x302D, 1),
    (cp 0x302E, 1), (cp 0x302F, 1)]

/-- Excerpt of the range table `unicode.Mn` (Unicode 14), up to U+30FF. -/
def excerptMn : List (Nat × Nat × Nat) :=
  [
    (0x0300, 0x036F, 1), (0x0483, 0x0487, 1), (0x0591, 0x05BD, 1), (0x05BF, 0x05BF, 1),
    (0x05C1, 0x05C2, 1), (0x05C4, 0x05C5, 1), (0x05C7, 0x05C7, 1), (0x0610, 0x061A, 1),
    (0x064B, 0x065F, 1), (0x0670, 0x0670, 1), (0x06D6, 0x06DC, 1), (0x06DF, 0x06E4, 1),
    (0x06E7, 0x06E8, 1), (0x06EA, 0x06ED, 1), (0x0711, 0x0711, 1), (0x0730, 0x074A, 1),
    (0x07A6, 0x07B0, 1), (0x07EB, 0x07F3, 1), (0x07FD, 0x07FD, 1), (0x0816, 0x0819, 1),
    (0x081B, 0x0823, 1), (0x0825, 0x0827, 1), (0x0829, 0x082D, 1), (0x0859, 0x085B, 1),
    (0x0898, 0x089F, 1), (0x08CA, 0x08E1, 1), (0x08E3, 0x0902, 1), (0x093A, 0x093A, 1),
    (0x093C, 0x093C, 1), (0x0941, 0x0948, 1), (0x094D, 0x094D, 1), (0x0951, 0x0957, 1),
    (0x0962, 0x0963, 1), (0x0981, 0x0981, 1), (0x09BC, 0x09BC, 1), (0x09C1, 0x09C4, 1),
    (0x09CD, 0x09CD, 1), (0x09E2, 0x09E3, 1), (0x09FE, 0x09FE, 1), (0x0A01, 0x0A02, 1),
    (0x0A3C, 0x0A3C, 1), (0x0A41, 0x0A42, 1), (0x0A47, 0x0A48, 1), (0x0A4B, 0x0A4D, 1),
    (0x0A51, 0x0A51, 1), (0x0A70, 0x0A71, 1), (0x0A75, 0x0A75, 1), (0x0A81, 0x0A82, 1),
    (0x0ABC, 0x0ABC, 1), (0x0AC1, 0x0AC5, 1), (0x0AC7, 0x0AC8, 1), (0x0ACD, 0x0ACD, 1),
    (0x0AE2, 0x0AE3, 1), (0x0AFA, 0x0AFF, 1), (0x0B01, 0x0B01, 1), (0x0B3C, 0x0B3C, 1),
    (0x0B3F, 0x0B3F, 1), (0x0B41, 0x0B44, 1), (0x0B4D, 0x0B4D, 1), (0x0B55, 0x0B56, 1),
    (0x0B62, 0x0B63, 1), (0x0B82, 0x0B82, 1), (0x0BC0, 0x0BC0, 1), (0x0BCD, 0x0BCD, 1),
    (0x0C00, 0x0C00, 1), (0x0C04, 0x0C04, 1), (0x0C3C, 0x0C3C, 1), (0x0C3E, 0x0C40, 1),
    (0x0C46, 0x0C48, 1), (0x0C4A, 0x0C4D, 1), (0x0C55, 0x0C56, 1), (0x0C62, 0x0C63, 1),
    (0x0C81, 0x0C81, 1), (0x0CBC, 0x0CBC, 1), (0x0CBF, 0x0CBF, 1), (0x0CC6, 0x0CC6, 1),
    (0x0CCC, 0x0CCD, 1), (0x0CE2, 0x0CE3, 1), (0x0D00, 0x0D01, 1), (0x0D3B, 0x0D3C, 1),
    (0x0D41, 0x0D44, 1), (0x0D4D, 0x0D4D, 1), (0x0D62, 0x0D63, 1), (0x0D81, 0x0D81, 1),
    (0x0DCA, 0x0DCA, 1), (0x0DD2, 0x0DD4, 1), (0x0DD6, 0x0DD6, 1), (0x0E31, 0x0E31, 1),
    (0x0E34, 0x0E3A, 1), (0x0E47, 0x0E4E, 1), (0x0EB1, 0x0EB1, 1), (0x0EB4, 0x0EBC, 1),
    (0x0EC8, 0x0ECD, 1), (0x0F18, 0x0F19, 1), (0x0F35, 0x0F35, 1), (0x0F37, 0x0F37, 1),
    (0x0F39, 0x0F39, 1), (0x0F71, 0x0F7E, 1), (0x0F80, 0x0F84, 1), (0x0F86, 0x0F87, 1),
    (0x0F8D, 0x0F97, 1), (0x0F99, 0x0FBC, 1), (0x0FC6, 0x0FC6, 1), (0x102D, 0x1030, 1),
    (0x1032, 0x1037, 1), (0x1039, 0x103A, 1), (0x103D, 0x103E, 1), (0x1058, 0x1059, 1),
    (0x105E, 0x1060, 1), (0x1071, 0x1074, 1), (0x1082, 0x1082, 1), (0x1085, 0x1086, 1),
    (0x108D, 0x108D, 1), (0x109D, 0x109D, 1), (0x135D, 0x135F, 1), (0x1712, 0x1714, 1),
    (0x1732, 0x1733, 1), (0x1752, 0x1753, 1), (0x1772, 0x1773, 1), (0x17B4, 0x17B5, 1),
    (0x17B7, 0x17BD, 1), (0x17C6, 0x17C6, 1), (0x17C9, 0x17D3, 1), (0x17DD, 0x17DD, 1),
    (0x180B, 0x180D, 1), (0x180F, 0x180F, 1), (0x1885, 0x1886, 1), (0x18A9, 0x18A9, 1),
    (0x1920, 0x1922, 1), (0x1927, 0x1928, 1), (0x1932, 0x1932, 1), (0x1939, 0x193B, 1),
    (0x1A17, 0x1A18, 1), (0x1A1B, 0x1A1B, 1), (0x1A56, 0x1A56, 1), (0x1A58, 0x1A5E, 1),
    (0x1A60, 0x1A60, 1), (0x1A62, 0x1A62, 1), (0x1A65, 0x1A6C, 1), (0x1A73, 0x1A7C, 1),
    (0x1A7F, 0x1A7F, 1), (0x1AB0, 0x1ABD, 1), (0x1ABF, 0x1ACE, 1), (0x1B00, 0x1B03, 1),
    (0x1B34, 0x1B34, 1), (0x1B36, 0x1B3A, 1), (0x1B3C, 0x1B3C, 1), (0x1B42, 0x1B42, 1),
    (0x1B6B, 0x1B73, 1), (0x1B80, 0x1B81, 1), (0x1BA2, 0x1BA5, 1), (0x1BA8, 0x1BA9, 1),
    (0x1BAB, 0x1BAD, 1), (0x1BE6, 0x1BE6, 1), (0x1BE8, 0x1BE9, 1), (0x1BED, 0x1BED, 1),
    (0x1BEF, 0x1BF1, 1), (0x1C2C, 0x1C33, 1), (0x1C36, 0x1C37, 1), (0x1CD0, 0x1CD2, 1),
    (0x1CD4, 0x1CE0, 1), (0x1CE2, 0x1CE8, 1), (0x1CED, 0x1CED, 1), (0x1CF4, 0x1CF4, 1),
    (0x1CF8, 0x1CF9, 1), (0x1DC0, 0x1DFF, 1), (0x20D0, 0x20DC, 1), (0x20E1, 0x20E1, 1),
    (0x20E5, 0x20F0, 1), (0x2CEF, 0x2CF1, 1), (0x2D7F, 0x2D7F, 1), (0x2DE0, 0x2DFF, 1),
    (0x302A, 0x302D, 1), (0x3099, 0x309A, 1)]

/-- The excerpt as normaliser data. -/
def excerpt : UnicodeData :=
  { ccc := excerptCcc, decomp := excerptDecomp, comp := excerptComp, lead := excerptLead,
    trail := excerptTrail, mn := excerptMn }

/-! ## Data model -/

/-- Go `len(s)` of a string: the number of bytes of its UTF-8 encoding. -/
def len (s : String) : Nat := s.utf8ByteSize

/-- Go struct `conf`. -/
structure conf where
  API_KEY : String
  deriving DecidableEq

/-- Go struct `Location`. -/
structure Location where
  Name : String
  Region : String
  Country : String
  Lat : F64
  Lon : F64
  TzID : String
  LocaltimeEpoch : Int
  Localtime : String
  deriving DecidableEq

/-- Go struct `Condition`. -/
structure Condition where
  Text : String
  Icon : String
  Code : Int
  deriving DecidableEq

/-- Go struct `Current`. -/
structure Current where
  LastUpdatedEpoch : Int
  LastUpdated : String
  TempC : F64
  TempF : F64
  IsDay : Int
  Condition : Condition
  deriving DecidableEq

/-- Go struct `Weather`. -/
structure Weather where
  Location : Location
  Current : Current
  WindMph : F64
  WindKph : F64
  WindDegree : Int
  WindDir : String
  PressureMb : Int
  PressureIn : F64
  PrecipMm : F64
  PrecipIn : F64
  Humidity : Int
  Cloud : Int
  FeelslikeC : F64
  FeelslikeF : F64
  VisKm : F64
  VisMiles : F64
  Uv : F64
  GustMph : F64
  GustKph : F64
  deriving DecidableEq

/-- Go struct `Cep`. -/
structure Cep where
  Cep : String
  Logradouro : String
  Complemento : String
  Localidade : String
  Uf : String
  Ibge : String
  Gia : String
  Ddd : String
  Siafi : String
  deriving DecidableEq

/-- The zero value `Cep{}`. -/
def Cep.zero : CityTemp.Cep := ⟨"", "", "", "", "", "", "", "", ""⟩

/-- Go local struct `viacepError`. -/
structure viacepError where
  Erro : Bool
  deriving DecidableEq

/-- A Go `error` value, as far as the pipeline distinguishes them: `nil` is `none`. -/
inductive GoError where
  | transport
  | decode
  deriving DecidableEq

/-! ## JSON, as `encoding/json` reads and writes the two structs -/

/-- A JSON value found under a key of an object. -/
inductive JValue where
  | null
  | bool (b : Bool)
  | number (n : Int)
  | string (s : String)
  | composite
  deriving DecidableEq

/-- A response body, as the JSON decoder sees it. -/
inductive Body where
  /-- Not a JSON document. -/
  | malformed
  /-- The document `null`. -/
  | null
  /-- A document that is a number, a string, a boolean or an array. -/
  | other
  /-- A JSON object, with its members in order. -/
  | object (members : List (String × JValue))
  deriving DecidableEq

/-- Case folding of `encoding/json` for object keys: ASCII letters to upper case, and the two
non-ASCII runes that fold to an ASCII letter. -/
def foldRune (c : Char) : Char :=
  if 'a'.toNat ≤ c.toNat ∧ c.toNat ≤ 'z'.toNat then Char.ofNat (c.toNat - 32)
  else if c.toNat = 0x17F then 'S'
  else if c.toNat = 0x212A then 'K'
  else c

/-- Whether an object key selects the struct field tagged `name`. -/
def keyMatches (name key : String) : Bool :=
  key.data.map foldRune == name.data.map foldRune

/-- Store one member of a JSON object into a `Cep`; the flag reports a value that is not
a string (an `UnmarshalTypeError`, after which decoding goes on). -/
def setCepField (acc : Cep × Bool) (m : String × JValue) : Cep × Bool :=
  let put (c : Cep) (v : String) : Cep :=
    if keyMatches "cep" m.1 then { c with Cep := v }
    else if keyMatches "logradouro" m.1 then { c with Logradouro := v }
    else if keyMatches "complemento" m.1 then { c with Complemento := v }
    else if keyMatches "localidade" m.1 then { c with Localidade := v }
    else if keyMatches "uf" m.1 then { c with Uf := v }
    else if keyMatches "ibge" m.1 then { c with Ibge := v }
    else if keyMatches "gia" m.1 then { c with Gia := v }
    else if keyMatches "ddd" m.1 then { c with Ddd := v }
    else if keyMatches "siafi" m.1 then { c with Siafi := v }
    else c
  let known : Bool :=
    ["cep", "logradouro", "complemento", "localidade", "uf", "ibge", "gia", "ddd",
      "siafi"].any (fun n => keyMatches n m.1)
  match m.2 with
  | JValue.string v => (put acc.1 v, acc.2)
  | JValue.null => acc
  | _ => (acc.1, acc.2 || known)

/-- Go `json.NewDecoder(body).Decode(&c)` for `c` a zero `Cep`: the decoded struct, and whether
an error is returned. -/
def decodeCep : Body → Cep × Option GoError
  | Body.malformed => (Cep.zero, some GoError.decode)
  | Body.null => (Cep.zero, none)
  | Body.other => (Cep.zero, some GoError.decode)
  | Body.object members =>
    let r := members.foldl setCepField (Cep.zero, false)
    (r.1, if r.2 then some GoError.decode else none)

/-- Go `json.Marshal(c)` for a `Cep`: an object with the nine tagged keys. -/
def marshalCep (c : Cep) : Body :=
  Body.object [("cep", JValue.string c.Cep), ("logradouro", JValue.string c.Logradouro),
    ("complemento", JValue.string c.Complemento), ("localidade", JValue.string c.Localidade),
    ("uf", JValue.string c.Uf), ("ibge", JValue.string c.Ibge), ("gia", JValue.string c.Gia),
    ("ddd", JValue.string c.Ddd), ("siafi", JValue.string c.Siafi)]

/-- Go `json.Unmarshal(cepJson, &errCheck)` for a zero `viacepError`, its error dropped as the
callers drop it. -/
def unmarshalViacepError : Body → viacepError
  | Body.object members =>
    members.foldl (fun acc m =>
      if keyMatches "erro" m.1 then
        match m.2 with
        | JValue.bool b => { acc with Erro := b }
        | _ => acc
      else acc) ⟨false⟩
  | _ => ⟨false⟩

/-! ## The outside world -/

/-- What `http.Get` returns: a transport error or a response with a body. -/
inductive HttpResult where
  | transportError
  | response (body : Body)
  deriving DecidableEq

/-- What viper does inside `loadConfig` of `src/main.go`. -/
inductive ViperOutcome where
  | readError
  | unmarshalError
  | loaded (cfg : conf)
  deriving DecidableEq

/-- What `configs.LoadConfig(".")` hands to `main` of `src/cmd/main.go`: the configuration
(`none` for a nil pointer) and the error. -/
structure LoadConfigResult where
  cfg : Option conf
  err : Option GoError
  deriving DecidableEq

/-- The collaborators of one run. -/
structure World where
  /-- Tables of the text normaliser. -/
  ucd : UnicodeData
  /-- Whether the build fuses the multiply-add of `convertToFahrenheit`. -/
  fused : Bool
  /-- Outcome of reading the configuration through viper (HTTP entry point). -/
  viper : ViperOutcome
  /-- Outcome of `configs.LoadConfig` (command-line entry point). -/
  configs : LoadConfigResult
  /-- Answer of the postal provider to the GET for a postal code. -/
  viacep : String → HttpResult
  /-- Outcome of the GET to the weather provider and of decoding its body, for a city
  and an API key. -/
  weatherapi : String → String → Except GoError Weather

/-- A call to a collaborator. -/
inductive Call where
  | loadConfig
  | getCep (cep : String)
  | getWeather (city apiKey : String)
  deriving DecidableEq

/-- Go `getCep` (the same text in both files). -/
def getCep (w : World) (cep : String) : Cep × Option GoError :=
  match w.viacep cep with
  | HttpResult.transportError => (Cep.zero, some GoError.transport)
  | HttpResult.response body =>
    match decodeCep body with
    | (_, some e) => (Cep.zero, some e)
    | (c, none) => (c, none)

/-- Go `getWeather` (the same text in both files). -/
def getWeather (w : World) (city apiKey : String) : Except GoError Weather :=
  w.weatherapi city apiKey

/-- Go `loadConfig` of `src/main.go`: it panics (`none`) when viper fails, and otherwise
returns the configuration with a nil error. -/
def loadConfig (w : World) : Option (conf × Option GoError) :=
  match w.viper with
  | ViperOutcome.readError => none
  | ViperOutcome.unmarshalError => none
  | ViperOutcome.loaded cfg => some (cfg, none)

/-! ## HTTP entry point -/

/-- The response map built by `cepHandler`. -/
structure Report where
  city_name : String
  city_region : String
  city_country : String
  temp_C : F64
  temp_F : F64
  temp_K : F64
  deriving DecidableEq

/-- Go `json.NewEncoder(w).Encode(response)` for the response map of `cepHandler`: the map
as the body carries it, or `none` when the encoder fails, which it does on an infinite
number, and writes nothing. -/
def encodeReport (response : Report) : Option Report :=
  if response.temp_C.isFinite && response.temp_F.isFinite && response.temp_K.isFinite then
    some response
  else none

/-- What `cepHandler` leaves in the `http.ResponseWriter`. -/
inductive HttpReply where
  /-- Written by `writeHTMLError`. -/
  | html (status : Nat) (message : String)
  /-- Content type `application/json`, status 200, and the body: what the encoder wrote of
  the response map, `none` for the empty body left when the encoder failed. -/
  | json (body : Option Report)
  /-- The handler panicked before writing. -/
  | panicked
  deriving DecidableEq

/-- Go `writeHTMLError`. -/
def writeHTMLError (status : Nat) (message : String) : HttpReply :=
  HttpReply.html status message

/-- Status code of a reply. -/
def HttpReply.status : HttpReply → Option Nat
  | HttpReply.html status _ => some status
  | HttpReply.json _ => some 200
  | HttpReply.panicked => none

/-- Body text of an error reply. -/
def HttpReply.body : HttpReply → Option String
  | HttpReply.html _ message => some ("<html><body><h2>Error: " ++ message ++ "</h2></body></html>")
  | _ => none

/-- Go `cepHandler` on the query parameter `cep`: the reply and the calls made. -/
def cepHandler (w : World) (cep : String) : HttpReply × List Call :=
  if cep = "" then
    (writeHTMLError 400 "CEP is required! Example: /cep?cep=22222-222", [])
  else if len cep < 9 then
    (writeHTMLError 422 "invalid zipcode", [])
  else
    match loadConfig w with
    | none => (HttpReply.panicked, [Call.loadConfig])
    | some (_, some _) =>
      (writeHTMLError 500 "internal server error", [Call.loadConfig])
    | some (config, none) =>
      match getCep w cep with
      | (c, err) =>
        if err.isSome || c == Cep.zero then
          (writeHTMLError 404 "can not find zipcode", [Call.loadConfig, Call.getCep cep])
        else if (unmarshalViacepError (marshalCep c)).Erro then
          (writeHTMLError 404 "can not find zipcode", [Call.loadConfig, Call.getCep cep])
        else
          match getWeather w (removeAccents w.ucd c.Localidade) config.API_KEY with
          | Except.error _ =>
            (writeHTMLError 500 "internal server error",
              [Call.loadConfig, Call.getCep cep,
                Call.getWeather (removeAccents w.ucd c.Localidade) config.API_KEY])
          | Except.ok weather =>
            (HttpReply.json
                (encodeReport
                  { city_name := weather.Location.Name
                    city_region := weather.Location.Region
                    city_country := weather.Location.Country
                    temp_C := weather.Current.TempC
                    temp_F := convertToFahrenheit w.fused weather.Current.TempC
                    temp_K := convertToKelvin weather.Current.TempC }),
              [Call.loadConfig, Call.getCep cep,
                Call.getWeather (removeAccents w.ucd c.Localidade) config.API_KEY])

/-! ## Command-line entry point -/

/-- The map `response` of `main`. -/
structure Temps where
  temp_C : F64
  temp_F : F64
  temp_K : F64
  deriving DecidableEq

/-- Go `json.Marshal(response)` for the map of `main`, its error dropped as `main` drops it:
the map as `respJson` carries it, or `none` for the nil slice returned when the encoder
fails, which it does on an infinite number. -/
def marshalTemps (response : Temps) : Option Temps :=
  if response.temp_C.isFinite && response.temp_F.isFinite && response.temp_K.isFinite then
    some response
  else none

/-- A line printed by `main`. -/
inductive CliLine where
  /-- Written by `fmt.Println`. -/
  | text (s : String)
  /-- Written by `fmt.Printf("Response Body: %s\n", respJson)`: the map that `respJson`
  carries, `none` for an empty `respJson`. -/
  | responseBody (respJson : Option Temps)
  deriving DecidableEq

/-- How `main` ends. -/
inductive CliExit where
  /-- Return from `main`. -/
  | returned
  /-- Call of `os.Exit` with the code. -/
  | exit (code : Nat)
  /-- Nil dereference of the configuration. -/
  | panicked
  deriving DecidableEq

/-- One run of the command line: what it printed, how it ended, the calls it made. -/
structure CliRun where
  lines : List CliLine
  exit : CliExit
  calls : List Call
  deriving DecidableEq

/-- Go `main` of `src/cmd/main.go` on the value of the flag `-cep`. -/
def main (w : World) (cep : String) : CliRun :=
  if cep = "" then
    ⟨[CliLine.text "Error: CEP is required.", CliLine.text "Example: -cep=22222-222"],
      CliExit.exit 1, []⟩
  else if len cep < 9 then
    ⟨[CliLine.text "Código HTTP: 422", CliLine.text "Mensagem: invalid zipcode"],
      CliExit.returned, []⟩
  else
    match w.configs.cfg with
    | none => ⟨[], CliExit.panicked, [Call.loadConfig]⟩
    | some configs =>
      if w.configs.err.isSome then
        ⟨[CliLine.text "Código HTTP: 500", CliLine.text "Mensagem: internal server error"],
          CliExit.returned, [Call.loadConfig]⟩
      else
        match getCep w cep with
        | (c, err) =>
          if err.isSome || c == Cep.zero then
            ⟨[CliLine.text "Código HTTP: 404", CliLine.text "Mensagem: can not find zipcode"],
              CliExit.returned, [Call.loadConfig, Call.getCep cep]⟩
          else if (unmarshalViacepError (marshalCep c)).Erro then
            ⟨[CliLine.text "Código HTTP: 404", CliLine.text "Mensagem: can not find zipcode"],
              CliExit.returned, [Call.loadConfig, Call.getCep cep]⟩
          else
            match getWeather w (removeAccents w.ucd c.Localidade) configs.API_KEY with
            | Except.error _ =>
              ⟨[CliLine.text "Código HTTP: 500", CliLine.text "Mensagem: internal server error"],
                CliExit.returned,
                [Call.loadConfig, Call.getCep cep,
                  Call.getWeather (removeAccents w.ucd c.Localidade) configs.API_KEY]⟩
            | Except.ok weather =>
              ⟨[CliLine.text "Código HTTP: 200",
                  CliLine.text ("City Name: " ++ weather.Location.Name),
                  CliLine.text ("City Region: " ++ weather.Location.Region),
                  CliLine.text ("City Country: " ++ weather.Location.Country),
                  CliLine.responseBody
                    (marshalTemps
                      { temp_C := weather.Current.TempC
                        temp_F := convertToFahrenheit w.fused weather.Current.TempC
                        temp_K := convertToKelvin weather.Current.TempC })],
                CliExit.returned,
                [Call.loadConfig, Call.getCep cep,
                  Call.getWeather (removeAccents w.ucd c.Localidade) configs.API_KEY]⟩

/-! ## Sample worlds -/

/-- A weather snapshot for São Paulo with the given Celsius and provider Fahrenheit readings. -/
def saoPauloWeather (tempC tempF : F64) : Weather :=
  { Location :=
      { Name := "Sao Paulo", Region := "Sao Paulo", Country := "Brazil",
        Lat := F64.ofNat 0, Lon := F64.ofNat 0, TzID := "America/Sao_Paulo",
        LocaltimeEpoch := 1700000000, Localtime := "2023-11-14 19:13" }
    Current :=
      { LastUpdatedEpoch := 1700000000, LastUpdated := "2023-11-14 19:00", TempC := tempC,
        TempF := tempF, IsDay := 1,
        Condition := { Text := "Sunny", Icon := "//cdn.weatherapi.com/113.png", Code := 1000 } }
    WindMph := F64.ofNat 0, WindKph := F64.ofNat 0, WindDegree := 0, WindDir := "",
    PressureMb := 0, PressureIn := F64.ofNat 0, PrecipMm := F64.ofNat 0,
    PrecipIn := F64.ofNat 0, Humidity := 0, Cloud := 0, FeelslikeC := F64.ofNat 0,
    FeelslikeF := F64.ofNat 0, VisKm := F64.ofNat 0, VisMiles := F64.ofNat 0,
    Uv := F64.ofNat 0, GustMph := F64.ofNat 0, GustKph := F64.ofNat 0 }

/-- The body the postal provider sends for `01001-000`. -/
def pracaDaSe : Body :=
  Body.object [("cep", JValue.string "01001-000"), ("logradouro", JValue.string "Praça da Sé"),
    ("complemento", JValue.string "lado ímpar"), ("bairro", JValue.string "Sé"),
    ("localidade", JValue.string "São Paulo"), ("uf", JValue.string "SP"),
    ("ibge", JValue.string "3550308"), ("gia", JValue.string "1004"),
    ("ddd", JValue.string "11"), ("siafi", JValue.string "7107")]

/-- The same body with the provider's error flag added. -/
def pracaDaSeFlagged : Body :=
  Body.object [("erro", JValue.bool true), ("cep", JValue.string "01001-000"),
    ("localidade", JValue.string "São Paulo"), ("uf", JValue.string "SP")]

/-- A world where both providers answer: the postal provider sends `body` for `01001-000`
and only the error flag for every other code, the weather provider knows `Sao Paulo`
with the given readings. -/
def worldWith (body : Body) (tempC tempF : F64) : World :=
  { ucd := excerpt
    fused := false
    viper := ViperOutcome.loaded ⟨"secret"⟩
    configs := ⟨some ⟨"secret"⟩, none⟩
    viacep := fun cep =>
      if cep = "01001-000" then HttpResult.response body
      else HttpResult.response (Body.object [("erro", JValue.bool true)])
    weatherapi := fun city _ =>
      if city = "Sao Paulo" then Except.ok (saoPauloWeather tempC tempF)
      else Except.error GoError.decode }

/-- The usual world: `01001-000` is Praça da Sé, São Paulo is at 25 °C. -/
def sampleWorld : World := worldWith pracaDaSe (F64.ofNat 25) (F64.ofNat 77)

/-- A world where the postal provider cannot be reached. -/
def postalDownWorld : World :=
  { sampleWorld with viacep := fun _ => HttpResult.transportError }

/-- A world where the weather provider cannot be reached. -/
def weatherDownWorld : World :=
  { sampleWorld with weatherapi := fun _ _ => Except.error GoError.transport }

/-- The command-line rendering of what the HTTP handler wrote, where that determines it:
the status and the message of an error as the two lines `main` prints for it, an encoded
response map as the five lines of a success.  An empty body of a 200 reply does not tell
the city lines. -/
def cliOf : HttpReply × List Call → Option CliRun
  | (HttpReply.html status message, calls) =>
    some ⟨[CliLine.text ("Código HTTP: " ++ toString status),
        CliLine.text ("Mensagem: " ++ message)],
      CliExit.returned, calls⟩
  | (HttpReply.json (some r), calls) =>
    some ⟨[CliLine.text "Código HTTP: 200", CliLine.text ("City Name: " ++ r.city_name),
        CliLine.text ("City Region: " ++ r.city_region),
        CliLine.text ("City Country: " ++ r.city_country),
        CliLine.responseBody (some ⟨r.temp_C, r.temp_F, r.temp_K⟩)],
      CliExit.returned, calls⟩
  | (HttpReply.json none, _) => none
  | (HttpReply.panicked, calls) => some ⟨[], CliExit.panicked, calls⟩

/-- The double that the JSON number `1e308` decodes to. -/
def reading1e308 : F64 := F64.fin false 5010420900022432 971

/-- The double that the JSON number `3.6` decodes to. -/
def reading3_6 : F64 := F64.roundQ false 36 10

/-- The usual world with São Paulo at 1e308 °C. -/
def hotWorld : World := worldWith pracaDaSe reading1e308 (F64.ofNat 0)

/-- The usual world on a build that fuses the multiply-add. -/
def fusedWorld : World := { sampleWorld with fused := true }

/-- The address decoded from `pracaDaSe`. -/
def pracaDaSeCep : Cep :=
  ⟨"01001-000", "Praça da Sé", "lado ímpar", "São Paulo", "SP", "3550308", "1004", "11", "7107"⟩

/-- The letter `a` followed by 31 copies of the tone mark U+302E (category Mc, class 224). -/
def manyToneMarks : String := String.mk ('a' :: List.replicate 31 (cp 0x302E))

/-! ## Canonical ordering -/

namespace UnicodeData

variable (u : UnicodeData)

theorem lookup_mem {α β : Type} [BEq α] [LawfulBEq α] (k : α) (v : β) :
    ∀ l : List (α × β), l.lookup k = some v → (k, v) ∈ l
  | [], h => by simp at h
  | (a, b) :: es, h => by
    by_cases hk : k == a
    · have hka : k = a := by simpa using hk
      simp [List.lookup, hk] at h
      simp [hka, h]
    · have hf : (k == a) = false := by simpa using hk
      simp [List.lookup, hf] at h
      exact List.mem_cons_of_mem _ (lookup_mem k v es h)

theorem reorderAux_nil (buf : List Char) : u.reorderAux buf [] = buf := rfl

theorem reorderAux_cons (buf : List Char) (c : Char) (l : List Char) :
    u.reorderAux buf (c :: l) = u.reorderAux (u.insertOrdered c buf) l := rfl

theorem reorderAux_append (buf : List Char) (l1 l2 : List Char) :
    u.reorderAux buf (l1 ++ l2) = u.reorderAux (u.reorderAux buf l1) l2 := by
  simp [reorderAux, List.foldl_append]

theorem reorder_eq (l : List Char) : u.reorder l = (u.reorderAux [] l).reverse := rfl

theorem insertOrdered_cons (c b : Char) (bs : List Char) :
    u.insertOrdered c (b :: bs) =
      if 0 < u.cccOf c ∧ u.cccOf c < u.cccOf b then b :: u.insertOrdered c bs
      else c :: b :: bs := rfl

/-- A rune that is a starter, or of a class not below that of the last buffered rune, is
appended. -/
theorem insertOrdered_of_le (c : Char) (buf : List Char)
    (h : u.cccOf c = 0 ∨ u.lastClass buf ≤ u.cccOf c) : u.insertOrdered c buf = c :: buf := by
  cases buf with
  | nil => rfl
  | cons b bs =>
    rw [insertOrdered_cons, if_neg]
    rintro ⟨h1, h2⟩
    rcases h with h | h
    · omega
    · simp only [lastClass] at h
      omega

theorem insertOrdered_perm (c : Char) : ∀ buf : List Char, (u.insertOrdered c buf).Perm (c :: buf)
  | [] => List.Perm.refl _
  | b :: bs => by
    rw [insertOrdered_cons]
    split
    · exact ((insertOrdered_perm c bs).cons b).trans (List.Perm.swap c b bs)
    · exact List.Perm.refl _

theorem reorderAux_perm : ∀ (l buf : List Char), (u.reorderAux buf l).Perm (l.reverse ++ buf)
  | [], buf => by simp [reorderAux_nil]
  | c :: l, buf => by
    rw [reorderAux_cons]
    refine (reorderAux_perm l _).trans ?_
    refine ((u.insertOrdered_perm c buf).append_left l.reverse).trans ?_
    simp

theorem reorder_perm (l : List Char) : (u.reorder l).Perm l := by
  rw [reorder_eq]
  refine (List.reverse_perm _).trans ?_
  refine (u.reorderAux_perm l []).trans ?_
  simp

theorem mem_reorder {c : Char} {l : List Char} : c ∈ u.reorder l ↔ c ∈ l :=
  (u.reorder_perm l).mem_iff

theorem insertOrdered_shape (c : Char) :
    ∀ buf : List Char, (u.insertOrdered c buf).map u.shape = (c :: buf).map u.shape
  | [] => rfl
  | b :: bs => by
    rw [insertOrdered_cons]
    split
    · rename_i h
      have hc : u.shape c = none := by simp [shape]; omega
      have hb : u.shape b = none := by simp [shape]; omega
      simp [insertOrdered_shape c bs, hc, hb]
    · rfl

theorem reorderAux_shape :
    ∀ (l buf : List Char), (u.reorderAux buf l).map u.shape = (l.reverse ++ buf).map u.shape
  | [], buf => by simp [reorderAux_nil]
  | c :: l, buf => by
    rw [reorderAux_cons, reorderAux_shape l, List.map_append, insertOrdered_shape]
    simp

/-- Canonical ordering keeps every starter where it is and a non-starter in every other
place. -/
theorem reorder_shape (l : List Char) : (u.reorder l).map u.shape = l.map u.shape := by
  rw [reorder_eq, List.map_reverse, reorderAux_shape]
  simp

theorem lastClassD_zero (buf : List Char) : u.lastClassD 0 buf = u.lastClass buf := by
  cases buf <;> rfl

theorem lastClassD_reverse_snoc (k : Nat) (a : Char) (m : List Char) :
    u.lastClassD k (m ++ [a]).reverse = u.cccOf a := by
  simp [lastClassD]

theorem orderedFrom_snoc (c : Char) : ∀ (l : List Char) (k : Nat),
    u.OrderedFrom k (l ++ [c]) ↔
      u.OrderedFrom k l ∧ (u.cccOf c = 0 ∨ u.lastClassD k l.reverse ≤ u.cccOf c)
  | [], k => by simp [OrderedFrom, lastClassD]
  | a :: l, k => by
    have ih := orderedFrom_snoc c l (u.cccOf a)
    have hl : u.lastClassD k (a :: l).reverse = u.lastClassD (u.cccOf a) l.reverse := by
      rcases List.eq_nil_or_concat l with h | ⟨m, b, h⟩
      · subst h
        simp [lastClassD]
      · subst h
        simp [lastClassD]
    simp only [List.cons_append, OrderedFrom, ih, hl]
    tauto

theorem orderedFrom_mono : ∀ (l : List Char) (k k2 : Nat), k2 ≤ k →
    u.OrderedFrom k l → u.OrderedFrom k2 l
  | [], _, _, _, _ => trivial
  | c :: l, k, k2, hk, h => by
    simp only [OrderedFrom] at h ⊢
    refine ⟨?_, h.2⟩
    rcases h.1 with h1 | h1
    · exact Or.inl h1
    · exact Or.inr (by omega)

theorem orderedFrom_reverse_of_orderedRev :
    ∀ buf : List Char, u.OrderedRev buf → u.OrderedFrom 0 buf.reverse
  | [], _ => trivial
  | c :: buf, h => by
    simp only [OrderedRev] at h
    rw [List.reverse_cons, orderedFrom_snoc]
    refine ⟨orderedFrom_reverse_of_orderedRev buf h.2, ?_⟩
    simpa [lastClassD_zero] using h.1

theorem lastClass_insertOrdered (c : Char) (buf : List Char) :
    u.lastClass (u.insertOrdered c buf) = u.cccOf c ∨
      (u.lastClass (u.insertOrdered c buf) = u.lastClass buf ∧ u.cccOf c < u.lastClass buf) := by
  cases buf with
  | nil => exact Or.inl rfl
  | cons b bs =>
    rw [insertOrdered_cons]
    split
    · rename_i h
      exact Or.inr ⟨rfl, h.2⟩
    · exact Or.inl rfl

theorem orderedRev_insertOrdered (c : Char) :
    ∀ buf : List Char, u.OrderedRev buf → u.OrderedRev (u.insertOrdered c buf)
  | [], _ => by simp [insertOrdered, OrderedRev, lastClass]
  | b :: bs, h => by
    simp only [OrderedRev] at h
    rw [insertOrdered_cons]
    split
    · rename_i hc
      simp only [OrderedRev]
      refine ⟨?_, orderedRev_insertOrdered c bs h.2⟩
      rcases u.lastClass_insertOrdered c bs with h1 | ⟨h1, _⟩
      · rw [h1]
        exact Or.inr (by omega)
      · rw [h1]
        exact h.1
    · rename_i hc
      simp only [OrderedRev, lastClass]
      refine ⟨?_, h⟩
      by_cases h0 : u.cccOf c = 0
      · exact Or.inl h0
      · exact Or.inr (by omega)

theorem orderedRev_reorderAux : ∀ (l buf : List Char), u.OrderedRev buf →
    u.OrderedRev (u.reorderAux buf l)
  | [], _, h => h
  | c :: l, buf, h => by
    rw [reorderAux_cons]
    exact orderedRev_reorderAux l _ (u.orderedRev_insertOrdered c buf h)

/-- The result of canonical ordering is canonically ordered. -/
theorem orderedFrom_reorder (l : List Char) : u.OrderedFrom 0 (u.reorder l) := by
  rw [reorder_eq]
  exact u.orderedFrom_reverse_of_orderedRev _ (u.orderedRev_reorderAux l [] trivial)

theorem reorderAux_of_ordered : ∀ (l buf : List Char), u.OrderedFrom (u.lastClass buf) l →
    u.reorderAux buf l = l.reverse ++ buf
  | [], _, _ => by simp [reorderAux_nil]
  | c :: l, buf, h => by
    simp only [OrderedFrom] at h
    rw [reorderAux_cons, u.insertOrdered_of_le c buf h.1, reorderAux_of_ordered l (c :: buf) h.2]
    simp

/-- Canonical ordering leaves a canonically ordered text unchanged. -/
theorem reorder_of_ordered (l : List Char) (h : u.OrderedFrom 0 l) : u.reorder l = l := by
  rw [reorder_eq, u.reorderAux_of_ordered l [] h]
  simp

theorem reorder_idem (l : List Char) : u.reorder (u.reorder l) = u.reorder l :=
  u.reorder_of_ordered _ (u.orderedFrom_reorder l)

/-- Two adjacent runes in the wrong order are put in the same places as in the right one. -/
theorem insertOrdered_swap (c t : Char) (ht : 0 < u.cccOf t) (htc : u.cccOf t < u.cccOf c) :
    ∀ buf : List Char,
      u.insertOrdered t (u.insertOrdered c buf) = u.insertOrdered c (u.insertOrdered t buf)
  | [] => by
    simp only [insertOrdered, insertOrdered_cons]
    rw [if_pos ⟨ht, htc⟩, if_neg (by omega)]
  | b :: bs => by
    by_cases hcb : u.cccOf c < u.cccOf b
    · have h1 : u.insertOrdered c (b :: bs) = b :: u.insertOrdered c bs := by
        rw [insertOrdered_cons, if_pos ⟨by omega, hcb⟩]
      have h2 : u.insertOrdered t (b :: bs) = b :: u.insertOrdered t bs := by
        rw [insertOrdered_cons, if_pos ⟨ht, by omega⟩]
      rw [h1, h2, insertOrdered_cons, if_pos ⟨ht, by omega⟩, insertOrdered_cons,
        if_pos ⟨by omega, hcb⟩, insertOrdered_swap c t ht htc bs]
    · have h1 : u.insertOrdered c (b :: bs) = c :: b :: bs := by
        rw [insertOrdered_cons, if_neg (by omega)]
      rw [h1, insertOrdered_cons (c := t) (b := c), if_pos ⟨ht, htc⟩]
      by_cases htb : u.cccOf t < u.cccOf b
      · have h2 : u.insertOrdered t (b :: bs) = b :: u.insertOrdered t bs := by
          rw [insertOrdered_cons, if_pos ⟨ht, htb⟩]
        rw [h2, insertOrdered_cons, if_neg (by omega)]
      · have h2 : u.insertOrdered t (b :: bs) = t :: b :: bs := by
          rw [insertOrdered_cons, if_neg (by omega)]
        rw [h2, insertOrdered_cons, if_neg (by omega)]

/-- A rune may be moved behind the non-starters of smaller class that follow it. -/
theorem reorderAux_move (c : Char) : ∀ (ts : List Char) (buf : List Char),
    (∀ t ∈ ts, 0 < u.cccOf t ∧ u.cccOf t < u.cccOf c) →
    u.reorderAux buf (c :: ts) = u.reorderAux buf (ts ++ [c])
  | [], _, _ => rfl
  | t :: ts, buf, h => by
    have ht := h t (List.mem_cons_self _ _)
    have hts : ∀ x ∈ ts, 0 < u.cccOf x ∧ u.cccOf x < u.cccOf c :=
      fun x hx => h x (List.mem_cons_of_mem _ hx)
    calc u.reorderAux buf (c :: t :: ts)
        = u.reorderAux (u.insertOrdered t (u.insertOrdered c buf)) ts := rfl
      _ = u.reorderAux (u.insertOrdered c (u.insertOrdered t buf)) ts := by
          rw [u.insertOrdered_swap c t ht.1 ht.2 buf]
      _ = u.reorderAux (u.insertOrdered t buf) (c :: ts) := rfl
      _ = u.reorderAux (u.insertOrdered t buf) (ts ++ [c]) := reorderAux_move c ts _ hts
      _ = u.reorderAux buf (t :: ts ++ [c]) := rfl

end UnicodeData

/-! ## Consequences of the consistency of the tables -/

namespace UnicodeData

variable (u : UnicodeData)

theorem decompose_atomic (h : u.WellFormed) {c d : Char} (hd : d ∈ u.decompose c) :
    u.decompose d = [d] := by
  unfold decompose at hd
  cases hl : u.decomp.lookup c with
  | none =>
    rw [hl] at hd
    have hdc : d = c := by simpa using hd
    subst hdc
    simp [decompose, hl]
  | some ds =>
    rw [hl] at hd
    exact h.1 (c, ds) (lookup_mem c ds _ hl) d (by simpa using hd)

theorem cccOf_joiner (h : u.WellFormed) : u.cccOf GraphemeJoiner = 0 := h.2.1.1

theorem decompose_joiner (h : u.WellFormed) : u.decompose GraphemeJoiner = [GraphemeJoiner] :=
  h.2.1.2.1

theorem nLead_joiner (h : u.WellFormed) : u.nLead GraphemeJoiner = 0 := h.2.1.2.2.1

theorem nTrail_joiner (h : u.WellFormed) : u.nTrail GraphemeJoiner = 0 := h.2.1.2.2.2.1

theorem isMn_joiner (h : u.WellFormed) : u.isMn GraphemeJoiner = true := h.2.1.2.2.2.2

/-- What the tables say about a pair that composes. -/
theorem combine_spec (h : u.WellFormed) {a b p : Char} (hp : u.combine a b = some p) :
    u.decompose p = u.decompose a ++ [b] ∧ u.decompose b = [b] ∧
    u.cccOf a = 0 ∧ u.cccOf p = 0 ∧ u.nLead a = 0 ∧ u.nLead p = 0 ∧
    1 ≤ u.nLead b ∧ u.nTrail p = u.nTrail a + u.nLead b ∧
    a ≠ GraphemeJoiner ∧ b ≠ GraphemeJoiner ∧
    (u.isMn p = true → u.isMn a = true) :=
  h.2.2.1 ((a, b), p) (lookup_mem (a, b) p _ hp)

theorem nLead_le (h : u.WellFormed) (c : Char) : u.nLead c ≤ maxNonStarters := by
  unfold nLead
  cases hl : u.lead.lookup c with
  | none => simp
  | some v => exact h.2.2.2.1 (c, v) (lookup_mem c v _ hl)

theorem nTrail_le (h : u.WellFormed) (c : Char) : u.nTrail c ≤ maxNonStarters := by
  unfold nTrail
  cases hl : u.trail.lookup c with
  | none => simp
  | some v => exact h.2.2.2.2.1 (c, v) (lookup_mem c v _ hl)

theorem nonStarter_spec (h : u.WellFormed) {c : Char} (hc : u.cccOf c ≠ 0) :
    1 ≤ u.nLead c ∧ (u.decompose c = [c] → u.nLead c = 1) := by
  unfold cccOf at hc
  cases hl : u.ccc.lookup c with
  | none => simp [hl] at hc
  | some k =>
    simp only [hl, Option.getD_some] at hc
    exact h.2.2.2.2.2.1 (c, k) (lookup_mem c k _ hl) hc

theorem ssNext_le (h : u.WellFormed) {ss : Nat} {c : Char}
    (hs : ss + u.nLead c ≤ maxNonStarters) : u.ssNext ss c ≤ maxNonStarters := by
  unfold ssNext
  split
  · exact u.nTrail_le h c
  · exact hs

theorem noOverflow_nil (ss : Nat) : u.NoOverflow ss [] := trivial

theorem noOverflow_cons (ss : Nat) (c : Char) (r : List Char) :
    u.NoOverflow ss (c :: r) ↔
      ss + u.nLead c ≤ maxNonStarters ∧ u.NoOverflow (u.ssNext ss c) r := Iff.rfl

/-- A run of runes that all count as non-starters adds up. -/
theorem noOverflow_additive : ∀ (ts : List Char) (ss : Nat), (∀ t ∈ ts, u.nLead t ≠ 0) →
    ss + (ts.map u.nLead).sum ≤ maxNonStarters →
    u.NoOverflow ss ts ∧ ts.foldl u.ssNext ss = ss + (ts.map u.nLead).sum
  | [], ss, _, _ => by simp [NoOverflow]
  | t :: ts, ss, h, hs => by
    have ht : u.nLead t ≠ 0 := h t (List.mem_cons_self _ _)
    have hn : u.ssNext ss t = ss + u.nLead t := by simp [ssNext, ht]
    simp only [List.map_cons, List.sum_cons] at hs
    have ih := noOverflow_additive ts (ss + u.nLead t)
      (fun x hx => h x (List.mem_cons_of_mem _ hx)) (by omega)
    simp only [NoOverflow, List.foldl_cons, hn, List.map_cons, List.sum_cons]
    refine ⟨⟨by omega, ih.1⟩, ?_⟩
    rw [ih.2]
    omega

/-- The counts of a rune are those of its decomposition. -/
theorem decompose_counts (h : u.WellFormed) (c : Char) (ss : Nat) (hss : ss ≤ maxNonStarters)
    (hs : ss + u.nLead c ≤ maxNonStarters) :
    u.NoOverflow ss (u.decompose c) ∧ (u.decompose c).foldl u.ssNext ss = u.ssNext ss c := by
  unfold decompose
  cases hl : u.decomp.lookup c with
  | none => simp [NoOverflow, hs]
  | some ds =>
    have he := h.2.2.2.2.2.2 (c, ds) (lookup_mem c ds _ hl)
    simp only [Option.getD_some]
    by_cases h0 : u.nLead c = 0
    · simp only [h0, if_true] at he
      cases ds with
      | nil => exact he.elim
      | cons d r =>
        simp only at he
        obtain ⟨hd, hno, hfold⟩ := he
        have hn : u.ssNext ss d = u.nTrail d := by simp [ssNext, hd]
        simp only [NoOverflow, List.foldl_cons, hn, hd]
        exact ⟨⟨by simpa using hss, hno⟩, by simp [hfold, ssNext, h0]⟩
    · simp only [h0, if_false] at he
      have ha := u.noOverflow_additive ds ss he.1 (by rw [he.2]; exact hs)
      refine ⟨ha.1, ?_⟩
      rw [ha.2, he.2]
      simp [ssNext, h0]

end UnicodeData

/-! ## The decomposition pass -/

namespace UnicodeData

variable (u : UnicodeData)

theorem decomposeRunes_cons (ss : Nat) (c : Char) (rest : List Char) :
    u.decomposeRunes ss (c :: rest) =
      if maxNonStarters < ss + u.nLead c then
        GraphemeJoiner :: (u.decompose c ++ u.decomposeRunes (u.nLead c) rest)
      else if u.nLead c = 0 then u.decompose c ++ u.decomposeRunes (u.nTrail c) rest
      else u.decompose c ++ u.decomposeRunes (ss + u.nLead c) rest := rfl

theorem decomposeRunes_cons_of_le {ss : Nat} {c : Char} (rest : List Char)
    (h : ss + u.nLead c ≤ maxNonStarters) :
    u.decomposeRunes ss (c :: rest) = u.decompose c ++ u.decomposeRunes (u.ssNext ss c) rest := by
  rw [decomposeRunes_cons, if_neg (by omega)]
  unfold ssNext
  split <;> rfl

theorem decomposeRunes_cons_of_lt {ss : Nat} {c : Char} (rest : List Char)
    (h : maxNonStarters < ss + u.nLead c) :
    u.decomposeRunes ss (c :: rest) =
      GraphemeJoiner :: (u.decompose c ++ u.decomposeRunes (u.nLead c) rest) := by
  rw [decomposeRunes_cons, if_pos h]

theorem atomic_nil : u.Atomic [] := fun _ h => by simp at h

theorem atomic_cons {c : Char} {l : List Char} :
    u.Atomic (c :: l) ↔ u.decompose c = [c] ∧ u.Atomic l := by
  simp [Atomic]

theorem atomic_append {l1 l2 : List Char} :
    u.Atomic (l1 ++ l2) ↔ u.Atomic l1 ∧ u.Atomic l2 := by
  simp only [Atomic, List.mem_append]
  constructor
  · intro h
    exact ⟨fun c hc => h c (Or.inl hc), fun c hc => h c (Or.inr hc)⟩
  · rintro ⟨h1, h2⟩ c (hc | hc)
    · exact h1 c hc
    · exact h2 c hc

theorem atomic_of_perm {l1 l2 : List Char} (hp : l1.Perm l2) (h : u.Atomic l2) : u.Atomic l1 :=
  fun c hc => h c (hp.mem_iff.mp hc)

theorem atomic_reorder {l : List Char} (h : u.Atomic l) : u.Atomic (u.reorder l) :=
  u.atomic_of_perm (u.reorder_perm l) h

theorem atomic_filter {l : List Char} (p : Char → Bool) (h : u.Atomic l) :
    u.Atomic (l.filter p) :=
  fun c hc => h c (List.mem_of_mem_filter hc)

theorem decomposeAll_of_atomic : ∀ {l : List Char}, u.Atomic l → u.decomposeAll l = l
  | [], _ => rfl
  | c :: l, h => by
    rw [atomic_cons] at h
    simp [decomposeAll, h.1, decomposeAll_of_atomic h.2]

theorem decomposeAll_append : ∀ (l1 l2 : List Char),
    u.decomposeAll (l1 ++ l2) = u.decomposeAll l1 ++ u.decomposeAll l2
  | [], _ => rfl
  | c :: l1, l2 => by simp [decomposeAll, decomposeAll_append l1 l2]

theorem mem_decomposeAll {d : Char} : ∀ {l : List Char},
    d ∈ u.decomposeAll l → ∃ c ∈ l, d ∈ u.decompose c
  | [], h => by simp [decomposeAll] at h
  | c :: l, h => by
    simp only [decomposeAll, List.mem_append] at h
    rcases h with h | h
    · exact ⟨c, List.mem_cons_self _ _, h⟩
    · obtain ⟨a, ha, hd⟩ := mem_decomposeAll h
      exact ⟨a, List.mem_cons_of_mem _ ha, hd⟩

theorem atomic_decomposeAll (h : u.WellFormed) (l : List Char) : u.Atomic (u.decomposeAll l) :=
  fun _ hd => by
    obtain ⟨_, _, hc⟩ := u.mem_decomposeAll hd
    exact u.decompose_atomic h hc

/-- Without overflow the pass is plain decomposition. -/
theorem decomposeRunes_of_noOverflow : ∀ (l : List Char) (ss : Nat), u.NoOverflow ss l →
    u.decomposeRunes ss l = u.decomposeAll l
  | [], _, _ => rfl
  | c :: l, ss, h => by
    rw [noOverflow_cons] at h
    rw [u.decomposeRunes_cons_of_le l h.1, decomposeRunes_of_noOverflow l _ h.2]
    rfl

/-- The runes of the result are joiners and runes of decompositions. -/
theorem mem_decomposeRunes {d : Char} : ∀ {l : List Char} {ss : Nat},
    d ∈ u.decomposeRunes ss l → d = GraphemeJoiner ∨ ∃ c ∈ l, d ∈ u.decompose c
  | [], _, h => by simp [decomposeRunes] at h
  | c :: l, ss, h => by
    have step : ∀ ss2, d ∈ u.decompose c ++ u.decomposeRunes ss2 l →
        d = GraphemeJoiner ∨ ∃ a ∈ c :: l, d ∈ u.decompose a := by
      intro ss2 h2
      rcases List.mem_append.mp h2 with h3 | h3
      · exact Or.inr ⟨c, List.mem_cons_self _ _, h3⟩
      · rcases mem_decomposeRunes h3 with h4 | ⟨a, ha, hd⟩
        · exact Or.inl h4
        · exact Or.inr ⟨a, List.mem_cons_of_mem _ ha, hd⟩
    rw [decomposeRunes_cons] at h
    split at h
    · rcases List.mem_cons.mp h with h1 | h1
      · exact Or.inl h1
      · exact step _ h1
    · split at h
      · exact step _ h
      · exact step _ h

theorem atomic_decomposeRunes (h : u.WellFormed) (l : List Char) (ss : Nat) :
    u.Atomic (u.decomposeRunes ss l) :=
  fun d hd => by
    rcases u.mem_decomposeRunes hd with h1 | ⟨_, _, hc⟩
    · rw [h1]
      exact u.decompose_joiner h
    · exact u.decompose_atomic h hc

/-- A pass that inserted no joiner did not overflow. -/
theorem noOverflow_of_not_mem : ∀ (l : List Char) (ss : Nat),
    GraphemeJoiner ∉ u.decomposeRunes ss l → u.NoOverflow ss l
  | [], _, _ => trivial
  | c :: l, ss, h => by
    by_cases hov : maxNonStarters < ss + u.nLead c
    · rw [u.decomposeRunes_cons_of_lt l hov] at h
      exact absurd (List.mem_cons_self _ _) h
    · have hle : ss + u.nLead c ≤ maxNonStarters := by omega
      rw [u.decomposeRunes_cons_of_le l hle] at h
      rw [noOverflow_cons]
      refine ⟨hle, noOverflow_of_not_mem l _ ?_⟩
      intro hm
      exact h (List.mem_append_right _ hm)

end UnicodeData

/-! ## Stream-safe form -/

namespace UnicodeData

variable (u : UnicodeData)

theorem streamSafe_nil (b : Bool) (ss : Nat) : u.StreamSafe b ss [] ↔ b = false := by
  cases b <;> simp [StreamSafe]

theorem streamSafe_false_cons (ss : Nat) (c : Char) (r : List Char) :
    u.StreamSafe false ss (c :: r) ↔
      if c = GraphemeJoiner then u.StreamSafe true ss r
      else ss + u.nLead c ≤ maxNonStarters ∧ u.StreamSafe false (u.ssNext ss c) r := by
  simp [StreamSafe]

theorem streamSafe_true_cons (ss : Nat) (c : Char) (r : List Char) :
    u.StreamSafe true ss (c :: r) ↔
      c ≠ GraphemeJoiner ∧ maxNonStarters < ss + u.nLead c ∧
        u.StreamSafe false (u.nLead c) r := by
  simp [StreamSafe]

theorem removeJoiners_cons_joiner (r : List Char) :
    removeJoiners (GraphemeJoiner :: r) = removeJoiners r := by
  simp [removeJoiners]

theorem removeJoiners_cons_of_ne {c : Char} (r : List Char) (h : c ≠ GraphemeJoiner) :
    removeJoiners (c :: r) = c :: removeJoiners r := by
  simp [removeJoiners, h]

theorem removeJoiners_of_not_mem : ∀ {l : List Char}, GraphemeJoiner ∉ l → removeJoiners l = l
  | [], _ => rfl
  | c :: l, h => by
    have hc : c ≠ GraphemeJoiner := fun hc => h (by simp [hc])
    rw [removeJoiners_cons_of_ne l hc,
      removeJoiners_of_not_mem (fun hm => h (List.mem_cons_of_mem _ hm))]

/-- The pass puts a text without joiners in stream-safe form. -/
theorem streamSafe_decomposeRunes (h : u.WellFormed) : ∀ (l : List Char) (ss : Nat),
    u.Atomic l → GraphemeJoiner ∉ l → ss ≤ maxNonStarters →
    u.StreamSafe false ss (u.decomposeRunes ss l)
  | [], _, _, _, _ => by simp [decomposeRunes, streamSafe_nil]
  | c :: l, ss, ha, hj, hss => by
    rw [atomic_cons] at ha
    have hc : c ≠ GraphemeJoiner := fun hc => hj (by simp [hc])
    have hl : GraphemeJoiner ∉ l := fun hm => hj (List.mem_cons_of_mem _ hm)
    by_cases hov : maxNonStarters < ss + u.nLead c
    · rw [u.decomposeRunes_cons_of_lt l hov, ha.1, streamSafe_false_cons, if_pos rfl,
        List.singleton_append, streamSafe_true_cons]
      exact ⟨hc, hov, streamSafe_decomposeRunes h l _ ha.2 hl (u.nLead_le h c)⟩
    · have hle : ss + u.nLead c ≤ maxNonStarters := by omega
      rw [u.decomposeRunes_cons_of_le l hle, ha.1, List.singleton_append, streamSafe_false_cons,
        if_neg hc]
      exact ⟨hle, streamSafe_decomposeRunes h l _ ha.2 hl (u.ssNext_le h hle)⟩

/-- Two runes of the same shape count alike. -/
theorem shape_eq_spec (h : u.WellFormed) {c1 c2 : Char} (hs : u.shape c1 = u.shape c2)
    (h1 : u.decompose c1 = [c1]) (h2 : u.decompose c2 = [c2]) :
    (c1 = GraphemeJoiner ↔ c2 = GraphemeJoiner) ∧ u.nLead c1 = u.nLead c2 ∧
      ∀ ss, u.ssNext ss c1 = u.ssNext ss c2 := by
  unfold shape at hs
  by_cases hc1 : u.cccOf c1 = 0
  · by_cases hc2 : u.cccOf c2 = 0
    · simp only [hc1, hc2, if_true, Option.some.injEq] at hs
      subst hs
      simp
    · simp [hc1, hc2] at hs
  · by_cases hc2 : u.cccOf c2 = 0
    · simp [hc1, hc2] at hs
    · have e1 := (u.nonStarter_spec h hc1).2 h1
      have e2 := (u.nonStarter_spec h hc2).2 h2
      have j1 : c1 ≠ GraphemeJoiner := fun hj => hc1 (hj ▸ u.cccOf_joiner h)
      have j2 : c2 ≠ GraphemeJoiner := fun hj => hc2 (hj ▸ u.cccOf_joiner h)
      refine ⟨by simp [j1, j2], by rw [e1, e2], fun ss => ?_⟩
      simp [ssNext, e1, e2]

/-- Stream-safe form depends on the shape of the text only. -/
theorem streamSafe_of_shape (h : u.WellFormed) : ∀ (y1 y2 : List Char) (b : Bool) (ss : Nat),
    y1.map u.shape = y2.map u.shape → u.Atomic y1 → u.Atomic y2 →
    u.StreamSafe b ss y1 → u.StreamSafe b ss y2
  | [], [], _, _, _, _, _, hs => hs
  | [], _ :: _, _, _, hm, _, _, _ => by simp at hm
  | _ :: _, [], _, _, hm, _, _, _ => by simp at hm
  | c1 :: r1, c2 :: r2, b, ss, hm, ha1, ha2, hs => by
    simp only [List.map_cons, List.cons.injEq] at hm
    rw [atomic_cons] at ha1 ha2
    obtain ⟨hj, hn, hnext⟩ := u.shape_eq_spec h hm.1 ha1.1 ha2.1
    cases b with
    | false =>
      rw [streamSafe_false_cons] at hs ⊢
      by_cases hc : c1 = GraphemeJoiner
      · rw [if_pos hc] at hs
        rw [if_pos (hj.mp hc)]
        exact streamSafe_of_shape h r1 r2 _ _ hm.2 ha1.2 ha2.2 hs
      · rw [if_neg hc] at hs
        rw [if_neg (fun h2 => hc (hj.mpr h2)), ← hn, ← hnext]
        exact ⟨hs.1, streamSafe_of_shape h r1 r2 _ _ hm.2 ha1.2 ha2.2 hs.2⟩
    | true =>
      rw [streamSafe_true_cons] at hs ⊢
      rw [← hn]
      exact ⟨fun h2 => hs.1 (hj.mpr h2), hs.2.1,
        streamSafe_of_shape h r1 r2 _ _ hm.2 ha1.2 ha2.2 hs.2.2⟩

/-- On a text in stream-safe form the pass puts back the joiners that were removed. -/
theorem decomposeRunes_removeJoiners : ∀ (y : List Char) (ss : Nat), u.Atomic y →
    (u.StreamSafe false ss y → u.decomposeRunes ss (removeJoiners y) = y) ∧
    (u.StreamSafe true ss y → u.decomposeRunes ss (removeJoiners y) = GraphemeJoiner :: y)
  | [], _, _ => by simp [streamSafe_nil, removeJoiners, decomposeRunes]
  | c :: r, ss, ha => by
    rw [atomic_cons] at ha
    constructor
    · intro hs
      rw [streamSafe_false_cons] at hs
      by_cases hc : c = GraphemeJoiner
      · rw [if_pos hc] at hs
        rw [hc, removeJoiners_cons_joiner]
        exact (decomposeRunes_removeJoiners r ss ha.2).2 hs
      · rw [if_neg hc] at hs
        rw [removeJoiners_cons_of_ne r hc, u.decomposeRunes_cons_of_le _ hs.1, ha.1,
          (decomposeRunes_removeJoiners r _ ha.2).1 hs.2]
        rfl
    · intro hs
      rw [streamSafe_true_cons] at hs
      rw [removeJoiners_cons_of_ne r hs.1, u.decomposeRunes_cons_of_lt _ hs.2.1, ha.1,
        (decomposeRunes_removeJoiners r _ ha.2).1 hs.2.2]
      rfl

/-- A text in stream-safe form does not overflow. -/
theorem noOverflow_of_streamSafe (h : u.WellFormed) : ∀ (y : List Char) (ss : Nat),
    ss ≤ maxNonStarters →
    (u.StreamSafe false ss y → u.NoOverflow ss y) ∧ (u.StreamSafe true ss y → u.NoOverflow 0 y)
  | [], _, _ => by simp [NoOverflow]
  | c :: r, ss, hss => by
    constructor
    · intro hs
      rw [streamSafe_false_cons] at hs
      rw [noOverflow_cons]
      by_cases hc : c = GraphemeJoiner
      · rw [if_pos hc] at hs
        have h0 : u.ssNext ss c = 0 := by
          rw [hc]
          simp [ssNext, u.nLead_joiner h, u.nTrail_joiner h]
        rw [h0, hc, u.nLead_joiner h]
        exact ⟨by simpa using hss, (noOverflow_of_streamSafe h r ss hss).2 hs⟩
      · rw [if_neg hc] at hs
        exact ⟨hs.1, (noOverflow_of_streamSafe h r _ (u.ssNext_le h hs.1)).1 hs.2⟩
    · intro hs
      rw [streamSafe_true_cons] at hs
      rw [noOverflow_cons]
      have hn : u.nLead c ≠ 0 := by
        intro h0
        rw [h0] at hs
        omega
      have h1 : u.ssNext 0 c = u.nLead c := by simp [ssNext, hn]
      rw [h1]
      exact ⟨by simpa using u.nLead_le h c,
        (noOverflow_of_streamSafe h r _ (u.nLead_le h c)).1 hs.2.2⟩

/-- Overflow depends on the shape of the text only. -/
theorem noOverflow_of_shape (h : u.WellFormed) : ∀ (y1 y2 : List Char) (ss : Nat),
    y1.map u.shape = y2.map u.shape → u.Atomic y1 → u.Atomic y2 →
    u.NoOverflow ss y1 → u.NoOverflow ss y2
  | [], [], _, _, _, _, hs => hs
  | [], _ :: _, _, hm, _, _, _ => by simp at hm
  | _ :: _, [], _, hm, _, _, _ => by simp at hm
  | c1 :: r1, c2 :: r2, ss, hm, ha1, ha2, hs => by
    simp only [List.map_cons, List.cons.injEq] at hm
    rw [atomic_cons] at ha1 ha2
    obtain ⟨_, hn, hnext⟩ := u.shape_eq_spec h hm.1 ha1.1 ha2.1
    rw [noOverflow_cons] at hs ⊢
    rw [← hn, ← hnext]
    exact ⟨hs.1, noOverflow_of_shape h r1 r2 _ hm.2 ha1.2 ha2.2 hs.2⟩

/-- Ordering the result of the pass, removing the joiners and running the pass again gives
the ordered result back. -/
theorem decomposeRunes_removeJoiners_reorder (h : u.WellFormed) (x : List Char)
    (ha : u.Atomic x) (hj : GraphemeJoiner ∉ x) :
    u.decomposeRunes 0 (removeJoiners (u.reorder (u.decomposeRunes 0 x))) =
      u.reorder (u.decomposeRunes 0 x) := by
  have hy := u.atomic_decomposeRunes h x 0
  have hs := u.streamSafe_decomposeRunes h x 0 ha hj (Nat.zero_le _)
  have hs2 := u.streamSafe_of_shape h _ _ false 0 (u.reorder_shape _).symm hy
    (u.atomic_reorder hy) hs
  exact (u.decomposeRunes_removeJoiners _ 0 (u.atomic_reorder hy)).1 hs2

end UnicodeData

/-! ## Canonical composition -/

namespace UnicodeData

variable (u : UnicodeData)

theorem composeAux_none_nil (pre tail : List Char) :
    u.composeAux pre none tail [] = pre.reverse := by
  simp [composeAux]

theorem composeAux_some_nil (pre tail : List Char) (s : Char) :
    u.composeAux pre (some s) tail [] = (tail ++ s :: pre).reverse := by
  simp [composeAux]

theorem composeAux_none_cons (pre tail : List Char) (c : Char) (rest : List Char) :
    u.composeAux pre none tail (c :: rest) =
      if u.cccOf c = 0 then u.composeAux pre (some c) [] rest
      else u.composeAux (c :: pre) none [] rest := by
  simp [composeAux]

theorem composeAux_some_cons (pre tail : List Char) (s c : Char) (rest : List Char) :
    u.composeAux pre (some s) tail (c :: rest) =
      match (if (match tail with | [] => false | b :: _ => decide (u.cccOf c ≤ u.cccOf b))
             then none else u.combine s c) with
      | some p => u.composeAux pre (some p) tail rest
      | none =>
        if u.cccOf c = 0 then u.composeAux (tail ++ s :: pre) (some c) [] rest
        else u.composeAux pre (some s) (c :: tail) rest := by
  simp [composeAux]

/-- The outcome of the blocking test and the table lookup for the next rune. -/
theorem combine_cases (tail : List Char) (s c : Char) :
    (∃ p, (if (match tail with | [] => false | b :: _ => decide (u.cccOf c ≤ u.cccOf b))
           then none else u.combine s c) = some p ∧ u.combine s c = some p ∧
           u.lastClass tail ≤ u.cccOf c ∧ (tail = [] ∨ u.lastClass tail < u.cccOf c)) ∨
    (if (match tail with | [] => false | b :: _ => decide (u.cccOf c ≤ u.cccOf b))
           then none else u.combine s c) = none := by
  cases tail with
  | nil =>
    cases hc : u.combine s c with
    | none => exact Or.inr (by simp [hc])
    | some p => exact Or.inl ⟨p, by simp [hc], rfl, by simp [lastClass], Or.inl rfl⟩
  | cons b bs =>
    by_cases hb : u.cccOf c ≤ u.cccOf b
    · exact Or.inr (by simp [hb])
    · cases hc : u.combine s c with
      | none => exact Or.inr (by simp [hc])
      | some p =>
        refine Or.inl ⟨p, by simp [hb, hc], rfl, ?_, Or.inr ?_⟩
        · simp only [lastClass]
          omega
        · simp only [lastClass]
          omega

/-- The finished output does not influence the rest of the composition. -/
theorem composeAux_pre : ∀ (rest pre : List Char) (st : Option Char) (tail : List Char),
    u.composeAux pre st tail rest = pre.reverse ++ u.composeAux [] st tail rest
  | [], pre, none, tail => by simp [composeAux_none_nil]
  | [], pre, some s, tail => by simp [composeAux_some_nil]
  | c :: rest, pre, none, tail => by
    rw [composeAux_none_cons, composeAux_none_cons]
    split
    · exact composeAux_pre rest pre _ _
    · rw [composeAux_pre rest (c :: pre), composeAux_pre rest [c]]
      simp
  | c :: rest, pre, some s, tail => by
    rw [composeAux_some_cons, composeAux_some_cons]
    rcases u.combine_cases tail s c with ⟨p, hp, -⟩ | hn
    · simp only [hp]
      exact composeAux_pre rest pre _ _
    · simp only [hn]
      split
      · rw [composeAux_pre rest (tail ++ s :: pre), composeAux_pre rest (tail ++ [s])]
        simp
      · exact composeAux_pre rest pre _ _

theorem tailOk_nil : u.TailOk [] := fun _ h => by simp at h

theorem tailOk_cons {c : Char} {tail : List Char} (ht : u.TailOk tail) (hc : 0 < u.cccOf c)
    (ha : u.decompose c = [c]) (hle : u.lastClass tail ≤ u.cccOf c) : u.TailOk (c :: tail) := by
  intro t hm
  rcases List.mem_cons.mp hm with h | h
  · subst h
    exact ⟨hc, le_refl _, ha⟩
  · obtain ⟨h1, h2, h3⟩ := ht t h
    exact ⟨h1, by simp only [lastClass]; omega, h3⟩

theorem tailOk_atomic {tail : List Char} (ht : u.TailOk tail) : u.Atomic tail.reverse :=
  fun t hm => (ht t (List.mem_reverse.mp hm)).2.2

/-- Composition after a starter does not change what decomposition and canonical ordering
make of the text. -/
theorem reorderAux_composeAux_some (h : u.WellFormed) :
    ∀ (rest : List Char) (s : Char) (tail : List Char), u.TailOk tail →
    u.OrderedFrom (u.lastClass tail) rest → u.Atomic rest → ∀ buf : List Char,
    u.reorderAux buf (u.decomposeAll (u.composeAux [] (some s) tail rest)) =
      u.reorderAux buf (u.decompose s ++ tail.reverse ++ rest)
  | [], s, tail, ht, _, _, buf => by
    rw [composeAux_some_nil]
    simp only [List.reverse_append, List.reverse_cons, List.reverse_nil, List.nil_append,
      List.singleton_append, List.append_nil]
    rw [decomposeAll, u.decomposeAll_of_atomic (u.tailOk_atomic ht)]
  | c :: rest, s, tail, ht, ho, ha, buf => by
    rw [atomic_cons] at ha
    simp only [OrderedFrom] at ho
    rw [composeAux_some_cons]
    rcases u.combine_cases tail s c with ⟨p, hp, hcomb, hle, hlt⟩ | hn
    · simp only [hp]
      have hspec := u.combine_spec h hcomb
      rw [reorderAux_composeAux_some h rest p tail ht
        (u.orderedFrom_mono rest _ _ hle ho.2) ha.2 buf, hspec.1]
      have hmove : ∀ t ∈ tail.reverse, 0 < u.cccOf t ∧ u.cccOf t < u.cccOf c := by
        intro t hm
        have hm2 := List.mem_reverse.mp hm
        obtain ⟨h1, h2, _⟩ := ht t hm2
        rcases hlt with h0 | h0
        · rw [h0] at hm2
          simp at hm2
        · exact ⟨h1, by omega⟩
      have e1 : u.decompose s ++ [c] ++ tail.reverse ++ rest =
          u.decompose s ++ ((c :: tail.reverse) ++ rest) := by simp
      have e2 : u.decompose s ++ tail.reverse ++ c :: rest =
          u.decompose s ++ ((tail.reverse ++ [c]) ++ rest) := by simp
      rw [e1, e2, reorderAux_append, reorderAux_append, reorderAux_append, reorderAux_append,
        u.reorderAux_move c tail.reverse _ hmove]
    · simp only [hn]
      split
      · rename_i hc0
        rw [composeAux_pre, decomposeAll_append, reorderAux_append,
          reorderAux_composeAux_some h rest c [] u.tailOk_nil
            (by simpa [lastClass, hc0] using ho.2) ha.2, ha.1]
        simp only [List.reverse_append, List.reverse_cons, List.reverse_nil, List.nil_append,
          List.singleton_append, List.append_nil]
        rw [decomposeAll, u.decomposeAll_of_atomic (u.tailOk_atomic ht), ← reorderAux_append]
      · rename_i hc0
        have hle : u.lastClass tail ≤ u.cccOf c := by
          rcases ho.1 with h0 | h0
          · exact absurd h0 hc0
          · exact h0
        rw [reorderAux_composeAux_some h rest s (c :: tail)
          (u.tailOk_cons ht (Nat.pos_of_ne_zero hc0) ha.1 hle) ho.2 ha.2 buf]
        simp

/-- Composition before the first starter. -/
theorem reorderAux_composeAux_none (h : u.WellFormed) :
    ∀ (rest : List Char) (pre tail : List Char) (k : Nat), u.Atomic pre →
    u.OrderedFrom k rest → u.Atomic rest → ∀ buf : List Char,
    u.reorderAux buf (u.decomposeAll (u.composeAux pre none tail rest)) =
      u.reorderAux buf (pre.reverse ++ rest)
  | [], pre, tail, _, hp, _, _, buf => by
    rw [composeAux_none_nil, u.decomposeAll_of_atomic]
    · simp
    · exact fun c hc => hp c (List.mem_reverse.mp hc)
  | c :: rest, pre, tail, k, hp, ho, ha, buf => by
    rw [atomic_cons] at ha
    simp only [OrderedFrom] at ho
    have hpre : u.Atomic pre.reverse := fun c hc => hp c (List.mem_reverse.mp hc)
    rw [composeAux_none_cons]
    split
    · rename_i hc0
      rw [composeAux_pre, decomposeAll_append, u.decomposeAll_of_atomic hpre, reorderAux_append,
        u.reorderAux_composeAux_some h rest c [] u.tailOk_nil
          (by simpa [lastClass, hc0] using ho.2) ha.2, ha.1, ← reorderAux_append]
      simp
    · rw [reorderAux_composeAux_none h rest (c :: pre) [] (u.cccOf c)
        (by rw [atomic_cons]; exact ⟨ha.1, hp⟩) ho.2 ha.2 buf]
      simp

/-- Decomposing and ordering a composed text gives back the ordered text it was composed
from. -/
theorem reorder_decomposeAll_compose (h : u.WellFormed) (z : List Char) (ha : u.Atomic z)
    (ho : u.OrderedFrom 0 z) : u.reorder (u.decomposeAll (u.compose z)) = z := by
  have e := u.reorderAux_composeAux_none h z [] [] 0 u.atomic_nil ho ha []
  rw [reorder_eq, compose, e]
  simpa [reorder_eq] using u.reorder_of_ordered z ho

theorem noOverflow_append_congr : ∀ (a b b2 : List Char) (ss : Nat),
    (∀ ss2, u.NoOverflow ss2 b → u.NoOverflow ss2 b2) →
    u.NoOverflow ss (a ++ b) → u.NoOverflow ss (a ++ b2)
  | [], _, _, ss, hb, h => hb ss h
  | c :: a, b, b2, ss, hb, h => by
    rw [List.cons_append, noOverflow_cons] at h ⊢
    exact ⟨h.1, noOverflow_append_congr a b b2 _ hb h.2⟩

/-- Taking a rune out of a run of non-starters and counting it before the run does not make
the count overflow. -/
theorem noOverflow_absorb (c : Char) (r : List Char) (hc : u.nLead c ≠ 0) :
    ∀ (ts : List Char) (k : Nat), (∀ t ∈ ts, u.nLead t ≠ 0) →
    u.NoOverflow k (ts ++ c :: r) →
    k + (ts.map u.nLead).sum + u.nLead c ≤ maxNonStarters ∧
      u.NoOverflow (k + u.nLead c) (ts ++ r)
  | [], k, _, h => by
    rw [List.nil_append, noOverflow_cons] at h
    have hn : u.ssNext k c = k + u.nLead c := by simp [ssNext, hc]
    rw [hn] at h
    exact ⟨by simpa using h.1, h.2⟩
  | t :: ts, k, hts, h => by
    have ht : u.nLead t ≠ 0 := hts t (List.mem_cons_self _ _)
    have hn : ∀ j, u.ssNext j t = j + u.nLead t := fun j => by simp [ssNext, ht]
    rw [List.cons_append, noOverflow_cons, hn] at h
    obtain ⟨hb, hno⟩ := noOverflow_absorb c r hc ts (k + u.nLead t)
      (fun x hx => hts x (List.mem_cons_of_mem _ hx)) h.2
    simp only [List.map_cons, List.sum_cons, List.cons_append]
    rw [noOverflow_cons, hn]
    refine ⟨by omega, by omega, ?_⟩
    have e : k + u.nLead c + u.nLead t = k + u.nLead t + u.nLead c := by omega
    rw [e]
    exact hno

/-- Composition after a starter does not make the stream-safe count overflow. -/
theorem noOverflow_composeAux_some (h : u.WellFormed) :
    ∀ (rest : List Char) (s : Char) (tail : List Char) (ss : Nat),
    (∀ t ∈ tail, u.nLead t ≠ 0) →
    u.NoOverflow ss (s :: (tail.reverse ++ rest)) →
    u.NoOverflow ss (u.composeAux [] (some s) tail rest)
  | [], s, tail, ss, _, hno => by
    rw [composeAux_some_nil]
    simpa using hno
  | c :: rest, s, tail, ss, ht, hno => by
    rw [composeAux_some_cons]
    rcases u.combine_cases tail s c with ⟨p, hp, hcomb, -, -⟩ | hn
    · simp only [hp]
      obtain ⟨-, -, -, -, hs0, hp0, hb1, htr, -, -, -⟩ := u.combine_spec h hcomb
      apply noOverflow_composeAux_some h rest p tail ss ht
      rw [noOverflow_cons] at hno ⊢
      have e1 : u.ssNext ss s = u.nTrail s := by simp [ssNext, hs0]
      have e2 : u.ssNext ss p = u.nTrail s + u.nLead c := by simp [ssNext, hp0, htr]
      rw [e1, hs0] at hno
      rw [e2, hp0]
      refine ⟨hno.1, (u.noOverflow_absorb c rest (by omega) tail.reverse _ ?_ hno.2).2⟩
      exact fun t hm => ht t (List.mem_reverse.mp hm)
    · simp only [hn]
      split
      · rw [composeAux_pre]
        have e : (tail ++ [s]).reverse = s :: tail.reverse := by simp
        rw [e]
        have hno2 : u.NoOverflow ss ((s :: tail.reverse) ++ c :: rest) := by simpa using hno
        refine u.noOverflow_append_congr (s :: tail.reverse) (c :: rest) _ ss ?_ hno2
        intro ss2 h2
        exact noOverflow_composeAux_some h rest c [] ss2 (fun _ hm => by simp at hm)
          (by simpa using h2)
      · rename_i hc0
        apply noOverflow_composeAux_some h rest s (c :: tail) ss
        · intro t hm
          rcases List.mem_cons.mp hm with h1 | h1
          · subst h1
            have := (u.nonStarter_spec h hc0).1
            omega
          · exact ht t h1
        · simpa using hno

/-- Composition before the first starter does not make the count overflow. -/
theorem noOverflow_composeAux_none (h : u.WellFormed) :
    ∀ (rest pre tail : List Char) (ss : Nat),
    u.NoOverflow ss (pre.reverse ++ rest) →
    u.NoOverflow ss (u.composeAux pre none tail rest)
  | [], pre, tail, ss, hno => by
    rw [composeAux_none_nil]
    simpa using hno
  | c :: rest, pre, tail, ss, hno => by
    rw [composeAux_none_cons]
    split
    · rw [composeAux_pre]
      refine u.noOverflow_append_congr pre.reverse (c :: rest) _ ss ?_ hno
      intro ss2 h2
      exact u.noOverflow_composeAux_some h rest c [] ss2 (fun _ hm => by simp at hm)
        (by simpa using h2)
    · exact noOverflow_composeAux_none h rest (c :: pre) [] ss (by simpa using hno)

theorem noOverflow_compose (h : u.WellFormed) (z : List Char) (hno : u.NoOverflow 0 z) :
    u.NoOverflow 0 (u.compose z) :=
  u.noOverflow_composeAux_none h z [] [] 0 (by simpa using hno)

end UnicodeData

/-! ## The normaliser as a whole -/

namespace UnicodeData

variable (u : UnicodeData)

theorem nfd_eq (l : List Char) : u.nfd l = u.reorder (u.decomposeRunes 0 l) := rfl

theorem nfc_eq (l : List Char) : u.nfc l = u.compose (u.nfd l) := rfl

theorem atomic_nfd (h : u.WellFormed) (l : List Char) : u.Atomic (u.nfd l) :=
  u.atomic_reorder (u.atomic_decomposeRunes h l 0)

theorem orderedFrom_nfd (l : List Char) : u.OrderedFrom 0 (u.nfd l) :=
  u.orderedFrom_reorder _

theorem mem_nfd {c : Char} {l : List Char} : c ∈ u.nfd l ↔ c ∈ u.decomposeRunes 0 l :=
  u.mem_reorder

theorem isMn_of_mem_removeMn {c : Char} {l : List Char} (hc : c ∈ u.removeMn l) :
    u.isMn c = false := by
  have := (List.mem_filter.mp hc).2
  simpa using this

/-- A text without joiners that is decomposed is normalised by ordering alone, up to the
joiners of the stream-safe form. -/
theorem noOverflow_nfd (h : u.WellFormed) (x : List Char) (ha : u.Atomic x)
    (hj : GraphemeJoiner ∉ x) : u.NoOverflow 0 (u.nfd x) := by
  have hy := u.atomic_decomposeRunes h x 0
  have hs := u.streamSafe_decomposeRunes h x 0 ha hj (Nat.zero_le _)
  have hs2 := u.streamSafe_of_shape h _ _ false 0 (u.reorder_shape _).symm hy
    (u.atomic_reorder hy) hs
  exact (u.noOverflow_of_streamSafe h _ 0 (Nat.zero_le _)).1 hs2

/-- The normal form D of the composition of a text in normal form D is that text. -/
theorem nfd_compose_nfd (h : u.WellFormed) (x : List Char) (ha : u.Atomic x)
    (hj : GraphemeJoiner ∉ x) : u.nfd (u.compose (u.nfd x)) = u.nfd x := by
  have hno := u.noOverflow_compose h _ (u.noOverflow_nfd h x ha hj)
  rw [nfd_eq (l := u.compose (u.nfd x)), u.decomposeRunes_of_noOverflow _ 0 hno]
  exact u.reorder_decomposeAll_compose h _ (u.atomic_nfd h x) (u.orderedFrom_nfd x)

/-- Removing the marks from the normal form D of a text without marks removes its
joiners. -/
theorem removeMn_nfd (h : u.WellFormed) (x : List Char) (ha : u.Atomic x)
    (hm : ∀ c ∈ x, u.isMn c = false) : u.removeMn (u.nfd x) = removeJoiners (u.nfd x) := by
  unfold removeMn removeJoiners
  apply List.filter_congr
  intro c hc
  rcases u.mem_decomposeRunes (u.mem_nfd.mp hc) with h1 | ⟨a, hax, hca⟩
  · rw [h1, u.isMn_joiner h]
    simp
  · rw [ha a hax] at hca
    have hca2 : c = a := by simpa using hca
    subst hca2
    have hne : c ≠ GraphemeJoiner := by
      intro he
      have := hm c hax
      rw [he, u.isMn_joiner h] at this
      exact absurd this (by simp)
    simp [hm c hax, hne]

/-- The normal form D of a text in normal form D stripped of its joiners is that text. -/
theorem nfd_removeJoiners_nfd (h : u.WellFormed) (x : List Char) (ha : u.Atomic x)
    (hj : GraphemeJoiner ∉ x) : u.nfd (removeJoiners (u.nfd x)) = u.nfd x := by
  rw [nfd_eq (l := removeJoiners (u.nfd x)), nfd_eq (l := x),
    u.decomposeRunes_removeJoiners_reorder h x ha hj, reorder_idem]

theorem strip_idem (h : u.WellFormed) (l : List Char) : u.strip (u.strip l) = u.strip l := by
  have ha : u.Atomic (u.removeMn (u.nfd l)) := u.atomic_filter _ (u.atomic_nfd h l)
  have hm : ∀ c ∈ u.removeMn (u.nfd l), u.isMn c = false := fun c hc => u.isMn_of_mem_removeMn hc
  have hj : GraphemeJoiner ∉ u.removeMn (u.nfd l) := by
    intro hc
    have := hm _ hc
    rw [u.isMn_joiner h] at this
    exact absurd this (by simp)
  unfold strip
  rw [nfc_eq (l := u.removeMn (u.nfd l)), nfc_eq, u.nfd_compose_nfd h _ ha hj,
    u.removeMn_nfd h _ ha hm, u.nfd_removeJoiners_nfd h _ ha hj]

end UnicodeData

theorem removeAccents_eq (u : UnicodeData) (s : String) :
    removeAccents u s = String.mk (u.strip s.data) := rfl

namespace UnicodeData

variable (u : UnicodeData)

theorem markFree_composeAux (h : u.WellFormed) :
    ∀ (rest pre : List Char) (st : Option Char) (tail : List Char),
    (∀ c ∈ pre, u.MarkFree c) → (∀ s, st = some s → u.MarkFree s) →
    (∀ c ∈ tail, u.MarkFree c) → (∀ c ∈ rest, u.MarkFree c) →
    ∀ c ∈ u.composeAux pre st tail rest, u.MarkFree c
  | [], pre, none, tail, hp, _, _, _ => by
    rw [composeAux_none_nil]
    exact fun c hc => hp c (List.mem_reverse.mp hc)
  | [], pre, some s, tail, hp, hs, ht, _ => by
    rw [composeAux_some_nil]
    intro c hc
    rcases List.mem_append.mp (List.mem_reverse.mp hc) with h1 | h1
    · exact ht c h1
    · rcases List.mem_cons.mp h1 with h2 | h2
      · exact h2 ▸ hs s rfl
      · exact hp c h2
  | c :: rest, pre, none, tail, hp, _, _, hr => by
    have hc := hr c (List.mem_cons_self _ _)
    have hr2 : ∀ x ∈ rest, u.MarkFree x := fun x hx => hr x (List.mem_cons_of_mem _ hx)
    rw [composeAux_none_cons]
    split
    · exact markFree_composeAux h rest pre (some c) [] hp
        (fun s hs => by cases hs; exact hc) (fun _ hm => by simp at hm) hr2
    · refine markFree_composeAux h rest (c :: pre) none [] ?_ (fun _ hs => by simp at hs)
        (fun _ hm => by simp at hm) hr2
      intro x hx
      rcases List.mem_cons.mp hx with h1 | h1
      · exact h1 ▸ hc
      · exact hp x h1
  | c :: rest, pre, some s, tail, hp, hs, ht, hr => by
    have hc := hr c (List.mem_cons_self _ _)
    have hr2 : ∀ x ∈ rest, u.MarkFree x := fun x hx => hr x (List.mem_cons_of_mem _ hx)
    rw [composeAux_some_cons]
    rcases u.combine_cases tail s c with ⟨p, hp2, hcomb, -, -⟩ | hn
    · simp only [hp2]
      obtain ⟨-, -, -, -, -, -, -, -, hsj, -, hmn⟩ := u.combine_spec h hcomb
      refine markFree_composeAux h rest pre (some p) tail hp ?_ ht hr2
      intro q hq hmq
      cases hq
      exact absurd (hs s rfl (hmn hmq)) hsj
    · simp only [hn]
      split
      · refine markFree_composeAux h rest (tail ++ s :: pre) (some c) [] ?_
          (fun q hq => by cases hq; exact hc) (fun _ hm => by simp at hm) hr2
        intro x hx
        rcases List.mem_append.mp hx with h1 | h1
        · exact ht x h1
        · rcases List.mem_cons.mp h1 with h2 | h2
          · exact h2 ▸ hs s rfl
          · exact hp x h2
      · refine markFree_composeAux h rest pre (some s) (c :: tail) hp hs ?_ hr2
        intro x hx
        rcases List.mem_cons.mp hx with h1 | h1
        · exact h1 ▸ hc
        · exact ht x h1

/-- The only marks that `removeAccents` leaves are grapheme joiners. -/
theorem markFree_strip (h : u.WellFormed) (l : List Char) : ∀ c ∈ u.strip l, u.MarkFree c := by
  have ha : u.Atomic (u.removeMn (u.nfd l)) := u.atomic_filter _ (u.atomic_nfd h l)
  have hin : ∀ c ∈ u.nfd (u.removeMn (u.nfd l)), u.MarkFree c := by
    intro c hc
    rcases u.mem_decomposeRunes (u.mem_nfd.mp hc) with h1 | ⟨a, hax, hca⟩
    · exact fun _ => h1
    · rw [ha a hax] at hca
      have hca2 : c = a := by simpa using hca
      subst hca2
      intro hm
      rw [u.isMn_of_mem_removeMn hax] at hm
      exact absurd hm (by simp)
  exact u.markFree_composeAux h _ [] none [] (fun _ hm => by simp at hm)
    (fun _ hs => by simp at hs) (fun _ hm => by simp at hm) hin

theorem mem_decomposeAll_of_mem {c d : Char} : ∀ {l : List Char},
    c ∈ l → d ∈ u.decompose c → d ∈ u.decomposeAll l
  | [], hc, _ => by simp at hc
  | a :: l, hc, hd => by
    simp only [decomposeAll, List.mem_append]
    rcases List.mem_cons.mp hc with h | h
    · exact Or.inl (h ▸ hd)
    · exact Or.inr (mem_decomposeAll_of_mem h hd)

theorem mem_canonicalDecomposition {d : Char} {l : List Char} :
    d ∈ u.canonicalDecomposition l ↔ d ∈ u.decomposeAll l :=
  u.mem_reorder

/-- Runes that do not overflow and are no joiners keep a text in stream-safe form. -/
theorem streamSafe_append : ∀ (a y : List Char) (ss : Nat),
    u.NoOverflow ss a → GraphemeJoiner ∉ a → u.StreamSafe false (a.foldl u.ssNext ss) y →
    u.StreamSafe false ss (a ++ y)
  | [], _, _, _, _, hy => hy
  | c :: a, y, ss, hno, hj, hy => by
    rw [noOverflow_cons] at hno
    have hc : c ≠ GraphemeJoiner := fun hc => hj (by simp [hc])
    rw [List.cons_append, streamSafe_false_cons, if_neg hc]
    exact ⟨hno.1, streamSafe_append a y _ hno.2
      (fun hm => hj (List.mem_cons_of_mem _ hm)) hy⟩

/-- A rune that counts as a non-starter and has no mark in its decomposition decomposes
into one rune of the same count. -/
theorem decompose_singleton (h : u.WellFormed) (hl : u.LongDecompositionsMarked) {c : Char}
    (hc : u.nLead c ≠ 0) (hm : ∀ d ∈ u.decompose c, u.isMn d = false) :
    ∃ d, u.decompose c = [d] ∧ u.nLead d = u.nLead c := by
  unfold decompose at hm ⊢
  cases hlook : u.decomp.lookup c with
  | none => exact ⟨c, by simp, rfl⟩
  | some ds =>
    rw [hlook] at hm
    simp only [Option.getD_some] at hm ⊢
    have hmem := lookup_mem c ds _ hlook
    have hcount := h.2.2.2.2.2.2 (c, ds) hmem
    simp only [hc, if_false] at hcount
    rcases hl (c, ds) hmem hc with h1 | ⟨d, hd, hmn⟩
    · match ds, h1, hcount with
      | [d], _, hcount => exact ⟨d, rfl, by simpa using hcount.2⟩
    · rw [hm d hd] at hmn
      exact absurd hmn (by simp)

/-- The pass puts every text without marks in its decomposition in stream-safe form. -/
theorem streamSafe_decomposeRunes_of_no_mark (h : u.WellFormed)
    (hl : u.LongDecompositionsMarked) : ∀ (l : List Char) (ss : Nat),
    (∀ c ∈ l, ∀ d ∈ u.decompose c, u.isMn d = false) → ss ≤ maxNonStarters →
    u.StreamSafe false ss (u.decomposeRunes ss l)
  | [], _, _, _ => by simp [decomposeRunes, streamSafe_nil]
  | c :: l, ss, hm, hss => by
    have hmc := hm c (List.mem_cons_self _ _)
    have hml : ∀ x ∈ l, ∀ d ∈ u.decompose x, u.isMn d = false :=
      fun x hx => hm x (List.mem_cons_of_mem _ hx)
    have hj : GraphemeJoiner ∉ u.decompose c := by
      intro hc
      have := hmc _ hc
      rw [u.isMn_joiner h] at this
      exact absurd this (by simp)
    by_cases hov : maxNonStarters < ss + u.nLead c
    · have hn : u.nLead c ≠ 0 := by
        intro h0
        rw [h0] at hov
        omega
      obtain ⟨d, hd, hnd⟩ := u.decompose_singleton h hl hn hmc
      have hdj : d ≠ GraphemeJoiner := fun he => hj (by simp [hd, he])
      rw [u.decomposeRunes_cons_of_lt l hov, hd, streamSafe_false_cons, if_pos rfl,
        List.singleton_append, streamSafe_true_cons, hnd]
      exact ⟨hdj, hov, streamSafe_decomposeRunes_of_no_mark h hl l _ hml (u.nLead_le h c)⟩
    · have hle : ss + u.nLead c ≤ maxNonStarters := by omega
      obtain ⟨h1, h2⟩ := u.decompose_counts h c ss hss hle
      rw [u.decomposeRunes_cons_of_le l hle]
      refine u.streamSafe_append _ _ ss h1 hj ?_
      rw [h2]
      exact streamSafe_decomposeRunes_of_no_mark h hl l _ hml (u.ssNext_le h hle)

/-- A text whose canonical decomposition has no mark is mapped to its normal form C, as
the norm package computes it. -/
theorem strip_of_no_mark (h : u.WellFormed) (hl : u.LongDecompositionsMarked)
    (l : List Char) (hm : ∀ c ∈ u.canonicalDecomposition l, u.isMn c = false) :
    u.strip l = u.nfc l := by
  have hm2 : ∀ c ∈ l, ∀ d ∈ u.decompose c, u.isMn d = false := fun c hc d hd =>
    hm d (u.mem_canonicalDecomposition.mpr (u.mem_decomposeAll_of_mem hc hd))
  have hy := u.atomic_decomposeRunes h l 0
  have hs := u.streamSafe_decomposeRunes_of_no_mark h hl l 0 hm2 (Nat.zero_le _)
  have hs2 : u.StreamSafe false 0 (u.nfd l) :=
    u.streamSafe_of_shape h _ _ false 0 (u.reorder_shape _).symm hy (u.atomic_reorder hy) hs
  have hf : u.removeMn (u.nfd l) = removeJoiners (u.nfd l) := by
    unfold removeMn removeJoiners
    apply List.filter_congr
    intro c hc
    rcases u.mem_decomposeRunes (u.mem_nfd.mp hc) with h1 | ⟨a, hal, hca⟩
    · rw [h1, u.isMn_joiner h]
      simp
    · have hcm := hm2 a hal c hca
      have hne : c ≠ GraphemeJoiner := by
        intro he
        rw [he, u.isMn_joiner h] at hcm
        exact absurd hcm (by simp)
      simp [hcm, hne]
  have hd : u.nfd (removeJoiners (u.nfd l)) = u.nfd l := by
    rw [nfd_eq (l := removeJoiners (u.nfd l)),
      (u.decomposeRunes_removeJoiners _ 0 (u.atomic_nfd h l)).1 hs2]
    exact u.reorder_idem _
  unfold strip
  rw [hf, nfc_eq, hd, nfc_eq]

end UnicodeData

/-! ## Input validation -/

theorem len_empty : len "" = 0 := by decide

theorem ne_empty_of_len {cep : String} (h : 9 ≤ len cep) : cep ≠ "" := by
  intro h0
  rw [h0, len_empty] at h
  omega

/-- C1 (as stated, refuted): a postal code of ten bytes is not rejected; both entry points go
on to call `getCep` with it. -/
theorem C1_longer_code_reaches_getCep :
    len "01001-0000" ≠ 9 ∧
      Call.getCep "01001-0000" ∈ (cepHandler sampleWorld "01001-0000").2 ∧
      Call.getCep "01001-0000" ∈ (main sampleWorld "01001-0000").calls := by
  decide

/-- C1 (amended): a postal code of fewer than nine bytes is rejected by both entry points
before any collaborator is called: the handler answers 400 (empty) or 422, the command line
prints the usage and exits with code 1 (empty) or prints the 422 lines. -/
theorem C1_short_code_rejected_before_any_call (w : World) (cep : String) (h : len cep < 9) :
    cepHandler w cep =
        (if cep = "" then writeHTMLError 400 "CEP is required! Example: /cep?cep=22222-222"
          else writeHTMLError 422 "invalid zipcode", []) ∧
      main w cep =
        (if cep = "" then
          ⟨[CliLine.text "Error: CEP is required.", CliLine.text "Example: -cep=22222-222"],
            CliExit.exit 1, []⟩
        else
          ⟨[CliLine.text "Código HTTP: 422", CliLine.text "Mensagem: invalid zipcode"],
            CliExit.returned, []⟩) := by
  by_cases h0 : cep = ""
  · simp [cepHandler, main, h0]
  · simp [cepHandler, main, h0, h]

theorem C1_short_code_rejected_before_any_call_witness :
    len "123" < 9 ∧
      cepHandler sampleWorld "123" = (writeHTMLError 422 "invalid zipcode", []) ∧
      main sampleWorld "123" =
        ⟨[CliLine.text "Código HTTP: 422", CliLine.text "Mensagem: invalid zipcode"],
          CliExit.returned, []⟩ :=
  ⟨by decide, by
    have h := C1_short_code_rejected_before_any_call sampleWorld "123" (by decide)
    simpa using h⟩

/-- C2 (as stated, refuted): `ççççç` has five characters, fewer than nine, but its UTF-8
encoding has ten bytes; the handler does not answer 422 and calls `getCep`. -/
theorem C2_five_characters_ten_bytes_not_rejected :
    "ççççç" ≠ "" ∧ "ççççç".length < 9 ∧ 9 ≤ len "ççççç" ∧
      (cepHandler sampleWorld "ççççç").1 ≠ writeHTMLError 422 "invalid zipcode" ∧
      Call.getCep "ççççç" ∈ (cepHandler sampleWorld "ççççç").2 := by
  decide

/-- C2 (amended): for every non-empty postal code whose UTF-8 encoding has fewer than nine
bytes, the handler answers 422 "invalid zipcode" and calls no collaborator. -/
theorem C2_short_nonempty_code_is_422 (w : World) (cep : String) (hne : cep ≠ "")
    (h : len cep < 9) :
    cepHandler w cep = (writeHTMLError 422 "invalid zipcode", []) ∧
      (cepHandler w cep).1.status = some 422 := by
  simp [cepHandler, hne, h, writeHTMLError, HttpReply.status]

theorem C2_short_nonempty_code_is_422_witness :
    "123" ≠ "" ∧ len "123" < 9 ∧
      cepHandler sampleWorld "123" = (writeHTMLError 422 "invalid zipcode", []) ∧
      (cepHandler sampleWorld "123").1.status = some 422 :=
  ⟨by decide, by decide,
    C2_short_nonempty_code_is_422 sampleWorld "123" (by decide) (by decide)⟩

/-- C3: for the empty postal code the handler answers 400 with the message that the CEP is
required, not the 422 "invalid zipcode" answer, and calls no collaborator. -/
theorem C3_empty_code_is_400 (w : World) :
    cepHandler w "" =
        (writeHTMLError 400 "CEP is required! Example: /cep?cep=22222-222", []) ∧
      (cepHandler w "").1.status = some 400 ∧
      (cepHandler w "").1 ≠ writeHTMLError 422 "invalid zipcode" := by
  simp [cepHandler, writeHTMLError, HttpReply.status]

/-! ## Postal lookup -/

/-- C4 (as stated, refuted): when the postal provider cannot be reached, `getCep` returns
an error and the handler answers 404, not 500. -/
theorem C4_transport_failure_is_404 :
    9 ≤ len "01001-000" ∧ (getCep postalDownWorld "01001-000").2 = some GoError.transport ∧
      (cepHandler postalDownWorld "01001-000").1 = writeHTMLError 404 "can not find zipcode" ∧
      (cepHandler postalDownWorld "01001-000").1 ≠
        writeHTMLError 500 "internal server error" := by
  decide

/-- C4 (amended): for every postal code of nine bytes or more, when the configuration loads
and `getCep` returns a non-nil error, the pipeline fails with 404 "can not find zipcode",
the answer it also gives for an empty address, and `getWeather` is not called. -/
theorem C4_getCep_error_is_404 (w : World) (cep : String) (cfg : conf)
    (hcfg : w.viper = ViperOutcome.loaded cfg) (hcli : w.configs = ⟨some cfg, none⟩)
    (hlen : 9 ≤ len cep) (herr : (getCep w cep).2.isSome = true) :
    cepHandler w cep =
        (writeHTMLError 404 "can not find zipcode", [Call.loadConfig, Call.getCep cep]) ∧
      main w cep =
        ⟨[CliLine.text "Código HTTP: 404", CliLine.text "Mensagem: can not find zipcode"],
          CliExit.returned, [Call.loadConfig, Call.getCep cep]⟩ := by
  have hne : cep ≠ "" := ne_empty_of_len hlen
  have hlt : ¬ len cep < 9 := by omega
  simp [cepHandler, main, hne, hlt, loadConfig, hcfg, hcli, herr]

theorem C4_getCep_error_is_404_witness :
    cepHandler postalDownWorld "01001-000" =
        (writeHTMLError 404 "can not find zipcode",
          [Call.loadConfig, Call.getCep "01001-000"]) ∧
      main postalDownWorld "01001-000" =
        ⟨[CliLine.text "Código HTTP: 404", CliLine.text "Mensagem: can not find zipcode"],
          CliExit.returned, [Call.loadConfig, Call.getCep "01001-000"]⟩ :=
  C4_getCep_error_is_404 postalDownWorld "01001-000" ⟨"secret"⟩ rfl rfl (by decide) (by decide)

/-- The check of the provider's error flag in both entry points reads the flag from the
encoding of the decoded `Cep`, which has no such member: it never fires. -/
theorem errCheck_never_set (c : Cep) : (unmarshalViacepError (marshalCep c)).Erro = false := by
  have h : ∀ k ∈ ["cep", "logradouro", "complemento", "localidade", "uf", "ibge", "gia", "ddd",
      "siafi"], keyMatches "erro" k = false := by decide
  simp only [List.mem_cons, List.mem_singleton, forall_eq_or_imp, forall_eq] at h
  simp [unmarshalViacepError, marshalCep, h]

/-- An address with every member empty is answered with 404, by both entry points, and
`getWeather` is not called. -/
theorem empty_address_is_404 (w : World) (cep : String) (cfg : conf)
    (hcfg : w.viper = ViperOutcome.loaded cfg) (hcli : w.configs = ⟨some cfg, none⟩)
    (hlen : 9 ≤ len cep) (hcep : (getCep w cep).1 = Cep.zero) :
    cepHandler w cep =
        (writeHTMLError 404 "can not find zipcode", [Call.loadConfig, Call.getCep cep]) ∧
      main w cep =
        ⟨[CliLine.text "Código HTTP: 404", CliLine.text "Mensagem: can not find zipcode"],
          CliExit.returned, [Call.loadConfig, Call.getCep cep]⟩ := by
  have hne : cep ≠ "" := ne_empty_of_len hlen
  have hlt : ¬ len cep < 9 := by omega
  simp [cepHandler, main, hne, hlt, loadConfig, hcfg, hcli, hcep]

/-- C5 (the code at the failing input): the postal provider answers `01001-000` with the error
flag set next to a locality.  The flag is lost when the body is decoded into `Cep`, the
handler does not answer 404, and `getWeather` is called with the locality of that address. -/
theorem C5_flagged_address_reaches_getWeather :
    (unmarshalViacepError pracaDaSeFlagged).Erro = true ∧
      (getCep (worldWith pracaDaSeFlagged (F64.ofNat 25) (F64.ofNat 77)) "01001-000").1.Localidade
        = "São Paulo" ∧
      (cepHandler (worldWith pracaDaSeFlagged (F64.ofNat 25) (F64.ofNat 77)) "01001-000").1.status
        = some 200 ∧
      (cepHandler (worldWith pracaDaSeFlagged (F64.ofNat 25) (F64.ofNat 77)) "01001-000").2
        = [Call.loadConfig, Call.getCep "01001-000", Call.getWeather "Sao Paulo" "secret"] := by
  set_option maxRecDepth 100000 in decide

/-! ## Weather lookup and report -/

/-- C6: for a postal code of nine bytes or more for which `getCep` returns a non-empty address
without error, an error of `getWeather` makes both entry points fail with 500 "internal
server error"; no report is produced. -/
theorem C6_getWeather_error_is_500 (w : World) (cep : String) (cfg : conf) (c : Cep)
    (e : GoError) (hcfg : w.viper = ViperOutcome.loaded cfg)
    (hcli : w.configs = ⟨some cfg, none⟩) (hlen : 9 ≤ len cep)
    (hcep : getCep w cep = (c, none)) (hfound : c ≠ Cep.zero)
    (hweather : getWeather w (removeAccents w.ucd c.Localidade) cfg.API_KEY = Except.error e) :
    cepHandler w cep =
        (writeHTMLError 500 "internal server error",
          [Call.loadConfig, Call.getCep cep,
            Call.getWeather (removeAccents w.ucd c.Localidade) cfg.API_KEY]) ∧
      (cepHandler w cep).1.status = some 500 ∧
      main w cep =
        ⟨[CliLine.text "Código HTTP: 500", CliLine.text "Mensagem: internal server error"],
          CliExit.returned,
          [Call.loadConfig, Call.getCep cep,
            Call.getWeather (removeAccents w.ucd c.Localidade) cfg.API_KEY]⟩ := by
  have hne : cep ≠ "" := ne_empty_of_len hlen
  have hlt : ¬ len cep < 9 := by omega
  simp [cepHandler, main, hne, hlt, loadConfig, hcfg, hcli, hcep, hfound, errCheck_never_set,
    hweather, writeHTMLError, HttpReply.status]

theorem C6_getWeather_error_is_500_witness :
    cepHandler weatherDownWorld "01001-000" =
        (writeHTMLError 500 "internal server error",
          [Call.loadConfig, Call.getCep "01001-000", Call.getWeather "Sao Paulo" "secret"]) ∧
      (cepHandler weatherDownWorld "01001-000").1.status = some 500 ∧
      main weatherDownWorld "01001-000" =
        ⟨[CliLine.text "Código HTTP: 500", CliLine.text "Mensagem: internal server error"],
          CliExit.returned,
          [Call.loadConfig, Call.getCep "01001-000", Call.getWeather "Sao Paulo" "secret"]⟩ :=
  C6_getWeather_error_is_500 weatherDownWorld "01001-000" ⟨"secret"⟩
    ⟨"01001-000", "Praça da Sé", "lado ímpar", "São Paulo", "SP", "3550308", "1004", "11",
      "7107"⟩
    GoError.transport rfl rfl (by decide) (by decide) (by decide) rfl

/-- The reply of the handler on a run that reaches the response map. -/
theorem cepHandler_success (w : World) (cep : String) (cfg : conf) (a : Cep) (x : Weather)
    (hcfg : w.viper = ViperOutcome.loaded cfg) (hlen : 9 ≤ len cep)
    (hcep : getCep w cep = (a, none)) (hfound : a ≠ Cep.zero)
    (hweather : getWeather w (removeAccents w.ucd a.Localidade) cfg.API_KEY = Except.ok x) :
    (cepHandler w cep).1 =
      HttpReply.json
        (encodeReport
          { city_name := x.Location.Name
            city_region := x.Location.Region
            city_country := x.Location.Country
            temp_C := x.Current.TempC
            temp_F := convertToFahrenheit w.fused x.Current.TempC
            temp_K := convertToKelvin x.Current.TempC }) := by
  have hne : cep ≠ "" := ne_empty_of_len hlen
  have hlt : ¬ len cep < 9 := by omega
  simp [cepHandler, hne, hlt, loadConfig, hcfg, hcep, hfound, errCheck_never_set, hweather]

/-- C7 (as stated, refuted): the postal and the weather lookup succeed and the reading is
1e308 °C; `celsius*1.8 + 32` overflows to +Inf, the encoder refuses it, and the handler
leaves status 200 with an empty body: no report with the three temperatures is produced. -/
theorem C7_overflow_leaves_no_report :
    reading1e308 = F64.roundQ false (10 ^ 154 * 10 ^ 154) 1 ∧
      getCep hotWorld "01001-000" = (pracaDaSeCep, none) ∧
      getWeather hotWorld "Sao Paulo" "secret" =
        Except.ok (saoPauloWeather reading1e308 (F64.ofNat 0)) ∧
      F64.add (F64.mul reading1e308 (F64.roundQ false 18 10)) (F64.ofNat 32) = F64.inf false ∧
      F64.fma reading1e308 (F64.roundQ false 18 10) (F64.ofNat 32) = F64.inf false ∧
      (cepHandler hotWorld "01001-000").1 = HttpReply.json none ∧
      (cepHandler hotWorld "01001-000").1.status = some 200 := by
  refine ⟨?_, ?_, rfl, ?_, ?_, ?_, ?_⟩ <;> set_option maxRecDepth 1000000 in decide!

/-- C7 (amended): on a successful run with address `a` and weather snapshot `x`, the handler
answers 200 with the report made of `x.Current.TempC`, of `TempC*1.8 + 32` (rounded once on
a build that fuses the multiply-add, after each operation otherwise), of `TempC + 273.15`
and of the name, region and country of `x.Location`, provided the three temperatures are
finite, and with an empty body otherwise; any other successful run on the same build whose
snapshot differs from `x` only in the provider's Fahrenheit reading, whatever its address,
gets the same reply.  Readings pinned: 25 gives 77 and 298.15 on both builds, -40 gives -40,
0 gives 32 and 273.15, 3.6 gives 38.480000000000004 unfused and 38.48 fused. -/
theorem C7_report_from_snapshot (w : World) (cep : String) (cfg : conf) (a : Cep) (x : Weather)
    (hcfg : w.viper = ViperOutcome.loaded cfg) (hlen : 9 ≤ len cep)
    (hcep : getCep w cep = (a, none)) (hfound : a ≠ Cep.zero)
    (hweather : getWeather w (removeAccents w.ucd a.Localidade) cfg.API_KEY = Except.ok x) :
    (cepHandler w cep).1 =
        HttpReply.json
          (if (x.Current.TempC.isFinite &&
                (if w.fused then
                  F64.fma x.Current.TempC (F64.roundQ false 18 10) (F64.ofNat 32)
                else
                  F64.add (F64.mul x.Current.TempC (F64.roundQ false 18 10))
                    (F64.ofNat 32)).isFinite &&
                (F64.add x.Current.TempC (F64.roundQ false 27315 100)).isFinite) = true then
            some
              { city_name := x.Location.Name
                city_region := x.Location.Region
                city_country := x.Location.Country
                temp_C := x.Current.TempC
                temp_F :=
                  if w.fused then
                    F64.fma x.Current.TempC (F64.roundQ false 18 10) (F64.ofNat 32)
                  else
                    F64.add (F64.mul x.Current.TempC (F64.roundQ false 18 10)) (F64.ofNat 32)
                temp_K := F64.add x.Current.TempC (F64.roundQ false 27315 100) }
          else none) ∧
      (∀ (w2 : World) (cep2 : String) (cfg2 : conf) (a2 : Cep) (tempF : F64),
        w2.fused = w.fused → w2.viper = ViperOutcome.loaded cfg2 → 9 ≤ len cep2 →
        getCep w2 cep2 = (a2, none) → a2 ≠ Cep.zero →
        getWeather w2 (removeAccents w2.ucd a2.Localidade) cfg2.API_KEY =
          Except.ok { x with Current := { x.Current with TempF := tempF } } →
        (cepHandler w2 cep2).1 = (cepHandler w cep).1) ∧
      (convertToFahrenheit false (F64.ofNat 25) = F64.fin false 5418393301680128 (-46) ∧
        convertToFahrenheit true (F64.ofNat 25) = F64.fin false 5418393301680128 (-46) ∧
        F64.ofNat 77 = F64.fin false 5418393301680128 (-46) ∧
        convertToKelvin (F64.ofNat 25) = F64.fin false 5245110269142630 (-44) ∧
        F64.roundQ false 29815 100 = F64.fin false 5245110269142630 (-44)) ∧
      (convertToFahrenheit false (F64.roundQ true 40 1) = F64.roundQ true 40 1 ∧
        convertToFahrenheit true (F64.roundQ true 40 1) = F64.roundQ true 40 1 ∧
        convertToFahrenheit false (F64.ofNat 0) = F64.ofNat 32 ∧
        convertToFahrenheit true (F64.ofNat 0) = F64.ofNat 32 ∧
        convertToKelvin (F64.ofNat 0) = F64.roundQ false 27315 100) ∧
      (convertToFahrenheit false reading3_6 =
          F64.roundQ false 38480000000000004 1000000000000000 ∧
        convertToFahrenheit true reading3_6 = F64.roundQ false 3848 100 ∧
        F64.roundQ false 38480000000000004 1000000000000000 ≠ F64.roundQ false 3848 100) := by
  have hrep := cepHandler_success w cep cfg a x hcfg hlen hcep hfound hweather
  refine ⟨?_, ?_, ?_, ?_, ?_⟩
  · rw [hrep]
    cases hf : w.fused <;>
      simp [encodeReport, convertToFahrenheit, convertToKelvin, const1_8, const273_15]
  · intro w2 cep2 cfg2 a2 tempF hf h1 h2 h3 h4 h5
    rw [cepHandler_success w2 cep2 cfg2 a2 _ h1 h2 h3 h4 h5, hrep, hf]
  · set_option maxRecDepth 1000000 in decide!
  · set_option maxRecDepth 1000000 in decide!
  · set_option maxRecDepth 1000000 in decide!

/-- C7 (amended) at `01001-000` with São Paulo at 25 °C: the report, and the same report
for a flagged address and another provider Fahrenheit reading. -/
theorem C7_report_from_snapshot_witness :
    (cepHandler sampleWorld "01001-000").1 =
        HttpReply.json
          (some
            { city_name := "Sao Paulo", city_region := "Sao Paulo", city_country := "Brazil",
              temp_C := F64.ofNat 25, temp_F := F64.ofNat 77,
              temp_K := F64.roundQ false 29815 100 }) ∧
      (cepHandler (worldWith pracaDaSeFlagged (F64.ofNat 25) (F64.ofNat 0)) "01001-000").1 =
        (cepHandler sampleWorld "01001-000").1 := by
  have h := C7_report_from_snapshot sampleWorld "01001-000" ⟨"secret"⟩ pracaDaSeCep
    (saoPauloWeather (F64.ofNat 25) (F64.ofNat 77)) rfl (by decide) (by decide) (by decide) rfl
  refine ⟨?_, ?_⟩
  · rw [h.1]
    set_option maxRecDepth 1000000 in decide
  · exact h.2.1 (worldWith pracaDaSeFlagged (F64.ofNat 25) (F64.ofNat 0)) "01001-000"
      ⟨"secret"⟩ ⟨"01001-000", "", "", "São Paulo", "SP", "", "", "", ""⟩ (F64.ofNat 0) rfl rfl
      (by decide) (by decide) (by decide) rfl

/-! ## The two entry points -/

/-- C10 (as stated, refuted): `01001-000` is not empty, the key loads and both lookups
succeed with a reading of 1e308 °C.  The handler leaves status 200 with an empty body, so it
reports no city and no temperature; `main` prints the status line and the name, region and
country of the city, and an empty response body. -/
theorem C10_overflow_replies_differ :
    "01001-000" ≠ "" ∧ hotWorld.viper = ViperOutcome.loaded ⟨"secret"⟩ ∧
      hotWorld.configs = ⟨some ⟨"secret"⟩, none⟩ ∧
      (cepHandler hotWorld "01001-000").1 = HttpReply.json none ∧
      (main hotWorld "01001-000").lines =
        [CliLine.text "Código HTTP: 200", CliLine.text "City Name: Sao Paulo",
          CliLine.text "City Region: Sao Paulo", CliLine.text "City Country: Brazil",
          CliLine.responseBody none] := by
  refine ⟨by decide, rfl, rfl, ?_, ?_⟩ <;> set_option maxRecDepth 1000000 in decide!

/-- The output of `main` on a run that reaches the response map. -/
theorem main_success (w : World) (cep : String) (cfg : conf) (a : Cep) (x : Weather)
    (hcli : w.configs = ⟨some cfg, none⟩) (hlen : 9 ≤ len cep)
    (hcep : getCep w cep = (a, none)) (hfound : a ≠ Cep.zero)
    (hweather : getWeather w (removeAccents w.ucd a.Localidade) cfg.API_KEY = Except.ok x) :
    main w cep =
      ⟨[CliLine.text "Código HTTP: 200", CliLine.text ("City Name: " ++ x.Location.Name),
          CliLine.text ("City Region: " ++ x.Location.Region),
          CliLine.text ("City Country: " ++ x.Location.Country),
          CliLine.responseBody
            (marshalTemps
              { temp_C := x.Current.TempC
                temp_F := convertToFahrenheit w.fused x.Current.TempC
                temp_K := convertToKelvin x.Current.TempC })],
        CliExit.returned,
        [Call.loadConfig, Call.getCep cep,
          Call.getWeather (removeAccents w.ucd a.Localidade) cfg.API_KEY]⟩ := by
  have hne : cep ≠ "" := ne_empty_of_len hlen
  have hlt : ¬ len cep < 9 := by omega
  simp [main, hne, hlt, hcli, hcep, hfound, errCheck_never_set, hweather]

/-- C10 (amended): for every non-empty postal code, with the same loaded API key, the same
providers and the same build, the two entry points make the same calls and report the same
status (422, 404, 500 or 200); unless the handler leaves an empty body, `main` prints
exactly the rendering of what the handler wrote: same status, same message, same three
temperatures, same city name, region and country.  The handler leaves an empty body when a
temperature is infinite; `main` then prints the status line, the three city lines of the
snapshot and an empty response body.  For the empty postal code `main` prints the usage and
exits with code 1, without a status line, where the handler answers 400. -/
theorem C10_main_renders_cepHandler (w : World) (cep : String) (cfg : conf) (hne : cep ≠ "")
    (hcfg : w.viper = ViperOutcome.loaded cfg) (hcli : w.configs = ⟨some cfg, none⟩) :
    ((cepHandler w cep).1 ≠ HttpReply.json none →
        cliOf (cepHandler w cep) = some (main w cep)) ∧
      ((cepHandler w cep).1 = HttpReply.json none →
        ∃ (a : Cep) (x : Weather),
          getCep w cep = (a, none) ∧
          getWeather w (removeAccents w.ucd a.Localidade) cfg.API_KEY = Except.ok x ∧
          (x.Current.TempC.isFinite &&
            (convertToFahrenheit w.fused x.Current.TempC).isFinite &&
            (convertToKelvin x.Current.TempC).isFinite) = false ∧
          main w cep =
            ⟨[CliLine.text "Código HTTP: 200",
                CliLine.text ("City Name: " ++ x.Location.Name),
                CliLine.text ("City Region: " ++ x.Location.Region),
                CliLine.text ("City Country: " ++ x.Location.Country),
                CliLine.responseBody none],
              CliExit.returned, (cepHandler w cep).2⟩) ∧
      (main w cep).calls = (cepHandler w cep).2 ∧
      (main w cep).lines.head? =
        (cepHandler w cep).1.status.map
          (fun n => CliLine.text ("Código HTTP: " ++ toString n)) ∧
      (cepHandler w cep).1.status ∈ [some 422, some 404, some 500, some 200] ∧
      main w "" =
        ⟨[CliLine.text "Error: CEP is required.", CliLine.text "Example: -cep=22222-222"],
          CliExit.exit 1, []⟩ ∧
      (cepHandler w "").1.status = some 400 := by
  have h422 : "Código HTTP: " ++ toString (422 : Nat) = "Código HTTP: 422" := by decide
  have h404 : "Código HTTP: " ++ toString (404 : Nat) = "Código HTTP: 404" := by decide
  have h500 : "Código HTTP: " ++ toString (500 : Nat) = "Código HTTP: 500" := by decide
  have h200 : "Código HTTP: " ++ toString (200 : Nat) = "Código HTTP: 200" := by decide
  have hempty : main w "" =
        ⟨[CliLine.text "Error: CEP is required.", CliLine.text "Example: -cep=22222-222"],
          CliExit.exit 1, []⟩ ∧
      (cepHandler w "").1.status = some 400 := by
    constructor
    · simp [main]
    · simp [cepHandler, writeHTMLError, HttpReply.status]
  refine ⟨?_, ?_, ?_, ?_, ?_, hempty⟩ <;> clear hempty
  all_goals by_cases hlt : len cep < 9
  any_goals
    simp [cepHandler, main, hne, hlt, cliOf, writeHTMLError, h422, HttpReply.status]
    done
  all_goals rcases hc : getCep w cep with ⟨c, err⟩
  all_goals by_cases hbad : (err.isSome || c == Cep.zero) = true
  any_goals
    simp [cepHandler, main, hne, hlt, loadConfig, hcfg, hcli, hc, hbad, cliOf,
      writeHTMLError, h404, HttpReply.status]
    done
  all_goals cases hw : getWeather w (removeAccents w.ucd c.Localidade) cfg.API_KEY
  any_goals
    simp [cepHandler, main, hne, hlt, loadConfig, hcfg, hcli, hc, hbad,
      errCheck_never_set, hw, cliOf, writeHTMLError, h500, HttpReply.status]
    done
  all_goals rename_i x
  all_goals by_cases hfin : (x.Current.TempC.isFinite &&
      (convertToFahrenheit w.fused x.Current.TempC).isFinite &&
      (convertToKelvin x.Current.TempC).isFinite) = true
  any_goals
    simp [cepHandler, main, hne, hlt, loadConfig, hcfg, hcli, hc, hbad,
      errCheck_never_set, hw, cliOf, encodeReport, marshalTemps, hfin, h200,
      HttpReply.status]
    done
  · intro _
    have herr : err = none := by
      cases err with
      | none => rfl
      | some e => simp at hbad
    subst herr
    have hcz : c ≠ Cep.zero := by
      intro hz
      exact hbad (by simp [hz])
    exact ⟨c, x, rfl, hw, by simpa using hfin, by
      simp [cepHandler, main, hne, hlt, loadConfig, hcfg, hcli, hc, hcz,
        errCheck_never_set, hw, encodeReport, marshalTemps, hfin]⟩

/-- C10 (amended) at `01001-000`: in the usual world, where the body is not empty, and at
1e308 °C, where it is. -/
theorem C10_main_renders_cepHandler_witness :
    "01001-000" ≠ "" ∧
      cliOf (cepHandler sampleWorld "01001-000") = some (main sampleWorld "01001-000") ∧
      (main sampleWorld "01001-000").calls = (cepHandler sampleWorld "01001-000").2 ∧
      (cepHandler sampleWorld "01001-000").1.status ∈
        [some 422, some 404, some 500, some 200] ∧
      (main hotWorld "01001-000").lines.head? =
        (cepHandler hotWorld "01001-000").1.status.map
          (fun n => CliLine.text ("Código HTTP: " ++ toString n)) ∧
      (main hotWorld "01001-000").calls = (cepHandler hotWorld "01001-000").2 :=
  ⟨by decide,
    (C10_main_renders_cepHandler sampleWorld "01001-000" ⟨"secret"⟩ (by decide) rfl rfl).1
      (by set_option maxRecDepth 1000000 in decide),
    (C10_main_renders_cepHandler sampleWorld "01001-000" ⟨"secret"⟩ (by decide) rfl
      rfl).2.2.1,
    (C10_main_renders_cepHandler sampleWorld "01001-000" ⟨"secret"⟩ (by decide) rfl
      rfl).2.2.2.2.1,
    (C10_main_renders_cepHandler hotWorld "01001-000" ⟨"secret"⟩ (by decide) rfl
      rfl).2.2.2.1,
    (C10_main_renders_cepHandler hotWorld "01001-000" ⟨"secret"⟩ (by decide) rfl
      rfl).2.2.1⟩

/-! ## Claims about the normaliser -/

set_option maxRecDepth 1000000 in
/-- The excerpt of the Unicode tables is consistent. -/
theorem excerpt_wellFormed : excerpt.WellFormed := by
  decide!

set_option maxRecDepth 1000000 in
/-- In the excerpt the non-starters that decompose into several code points have a mark in
their decomposition. -/
theorem excerpt_longDecompositionsMarked : excerpt.LongDecompositionsMarked := by
  decide!

/-- C8: `removeAccents` is idempotent, for every string and all consistent tables. -/
theorem C8_removeAccents_idempotent (u : UnicodeData) (h : u.WellFormed) (s : String) :
    removeAccents u (removeAccents u s) = removeAccents u s := by
  rw [removeAccents_eq, removeAccents_eq]
  exact congrArg String.mk (u.strip_idem h s.data)

/-- C8 on the excerpt and the text `São Paulo`. -/
theorem C8_removeAccents_idempotent_witness :
    excerpt.WellFormed ∧
      removeAccents excerpt (removeAccents excerpt "São Paulo") =
        removeAccents excerpt "São Paulo" :=
  ⟨excerpt_wellFormed, C8_removeAccents_idempotent excerpt excerpt_wellFormed "São Paulo"⟩

/-- C9 (as stated, refuted): after `a` and 31 tone marks U+302E, which are not of category
Mn, the final NFC pass inserts the grapheme joiner U+034F behind the thirtieth mark, and the
joiner is of category Mn.  The canonical decomposition of that text has no code point of
category Mn, and the result is not the canonical composition of it: the joiner is the
difference. -/
theorem C9_joiner_left_in_result :
    (removeAccents excerpt manyToneMarks).data =
        'a' :: List.replicate 30 (cp 0x302E) ++ [GraphemeJoiner, cp 0x302E] ∧
      GraphemeJoiner ∈ (removeAccents excerpt manyToneMarks).data ∧
      excerpt.isMn GraphemeJoiner = true ∧
      (∀ c ∈ excerpt.canonicalDecomposition manyToneMarks.data, excerpt.isMn c = false) ∧
      excerpt.compose (excerpt.canonicalDecomposition manyToneMarks.data) =
        manyToneMarks.data ∧
      (removeAccents excerpt manyToneMarks).data ≠ manyToneMarks.data := by
  decide

/-- C9 (amended): for every string and all consistent tables, the only code points of
category Mn in `removeAccents(s)` are grapheme joiners U+034F; a string whose canonical
decomposition has no code point of category Mn is mapped to its normal form C as `norm.NFC`
computes it, stream-safe joiners included (for tables where a non-starter with a long
decomposition has a mark in it); and `removeAccents("São Paulo") = "Sao Paulo"`. -/
theorem C9_removeAccents_leaves_no_mark (u : UnicodeData) (h : u.WellFormed) (s : String) :
    (∀ c ∈ (removeAccents u s).data, u.isMn c = true → c = GraphemeJoiner) ∧
      (u.LongDecompositionsMarked →
        (∀ c ∈ u.canonicalDecomposition s.data, u.isMn c = false) →
        removeAccents u s = String.mk (u.nfc s.data)) ∧
      removeAccents excerpt "São Paulo" = "Sao Paulo" := by
  refine ⟨u.markFree_strip h s.data, fun hl hm => ?_, by decide⟩
  rw [removeAccents_eq, u.strip_of_no_mark h hl s.data hm]

/-- C9 (amended) on the excerpt and the text of `a` and 31 tone marks, whose canonical
decomposition has no mark and whose normal form C has a joiner. -/
theorem C9_removeAccents_leaves_no_mark_witness :
    excerpt.WellFormed ∧ excerpt.LongDecompositionsMarked ∧
      (∀ c ∈ excerpt.canonicalDecomposition manyToneMarks.data, excerpt.isMn c = false) ∧
      (∀ c ∈ (removeAccents excerpt manyToneMarks).data,
        excerpt.isMn c = true → c = GraphemeJoiner) ∧
      removeAccents excerpt manyToneMarks = String.mk (excerpt.nfc manyToneMarks.data) ∧
      removeAccents excerpt "São Paulo" = "Sao Paulo" :=
  ⟨excerpt_wellFormed, excerpt_longDecompositionsMarked, by decide,
    (C9_removeAccents_leaves_no_mark excerpt excerpt_wellFormed manyToneMarks).1,
    (C9_removeAccents_leaves_no_mark excerpt excerpt_wellFormed manyToneMarks).2.1
      excerpt_longDecompositionsMarked (by decide),
    (C9_removeAccents_leaves_no_mark excerpt excerpt_wellFormed manyToneMarks).2.2⟩

end CityTemp
